import Mathlib

/-!
# Verification of the markdown-rs inline tokenizer core

A shallow embedding of the autolink recognizer
(`src/construct/autolink.rs`) and the character-reference recognizer
(`src/construct/character_reference.rs`), together with the parts of the
tokenizer engine they plug into.  The recognizer state functions are
translated byte-for-byte from the Rust source; the engine primitives
(`enter`, `exit`, `consume`, checkpoint/rollback) and the constants and
named-entity table live outside the provided sources and are modelled
from the specification, as marked on each such definition.

Bytes are represented as `Nat` (the source works on `u8`; all byte
literals here are their ASCII codes).
-/

namespace MarkdownRs

/-- Token kinds emitted by the two recognizers (a fragment of the `Token`
enumeration; adding constructs adds kinds, so a fragment is faithful). -/
inductive Token where
  | Autolink
  | AutolinkEmail
  | AutolinkMarker
  | AutolinkProtocol
  | CharacterReference
  | CharacterReferenceMarker
  | CharacterReferenceMarkerHexadecimal
  | CharacterReferenceMarkerNumeric
  | CharacterReferenceMarkerSemi
  | CharacterReferenceValue
  deriving DecidableEq, Repr

/-- `Enter` or `Exit` of a token span. -/
inductive EventKind where
  | enter
  | exit
  deriving DecidableEq, Repr

/-- One record of the event log: kind, token type, and the point (byte
offset) at which it was recorded.  Modelled from the spec: `Point` is a
byte offset plus line/column derived from it for diagnostics; only the
offset is semantically relevant, so the derived fields are omitted. -/
structure Event where
  kind : EventKind
  token : Token
  point : Nat
  deriving DecidableEq, Repr

/-- Names of the recognizer state functions, as used by `State::Next` /
`State::Retry` transitions. -/
inductive StateName where
  | AutolinkStart
  | AutolinkOpen
  | AutolinkSchemeOrEmailAtext
  | AutolinkSchemeInsideOrEmailAtext
  | AutolinkUrlInside
  | AutolinkEmailAtext
  | AutolinkEmailAtSignOrDot
  | AutolinkEmailLabel
  | AutolinkEmailValue
  | CharacterReferenceStart
  | CharacterReferenceOpen
  | CharacterReferenceNumeric
  | CharacterReferenceValue
  deriving DecidableEq, Repr

/-- The transition value returned by a state function. -/
inductive State where
  | Ok
  | Nok
  | Next (name : StateName)
  | Retry (name : StateName)
  deriving DecidableEq, Repr

/-- Modelled from the spec: the tokenizer attempt state — source bytes
and construct toggles (the read-only `ParseState`), the cursor `point`,
the event log, and the scratch record `{ marker, size }` of
`tokenize_state`.  `current` is derived as the byte under the cursor. -/
structure Tokenizer where
  bytes : List Nat
  point : Nat
  events : List Event
  marker : Nat
  size : Nat
  constructsAutolink : Bool
  constructsCharacterReference : Bool
  deriving DecidableEq, Repr

namespace Tokenizer

/-- The byte under the cursor, or `none` at end of input. -/
def current (t : Tokenizer) : Option Nat :=
  t.bytes[t.point]?

/-- Modelled from the spec: `consume()` advances the cursor by exactly
one byte. -/
def consume (t : Tokenizer) : Tokenizer :=
  { t with point := t.point + 1 }

/-- Modelled from the spec: `enter(kind)` appends an Enter event at the
current point without consuming. -/
def enter (t : Tokenizer) (k : Token) : Tokenizer :=
  { t with events := t.events ++ [⟨.enter, k, t.point⟩] }

/-- Modelled from the spec: `exit(kind)` appends an Exit event at the
current point; a kind mismatch with the open Enter is an internal
assertion (a programming defect, not an input condition), so the model
keeps the plain append. -/
def exit (t : Tokenizer) (k : Token) : Tokenizer :=
  { t with events := t.events ++ [⟨.exit, k, t.point⟩] }

/-- Rewrite the `token` field of the event at index `i` in place
(the engine's retroactive-retag primitive, `events[i].token_type = k`);
out of range would be an internal assertion in the source. -/
def setToken (t : Tokenizer) (i : Nat) (k : Token) : Tokenizer :=
  match t.events[i]? with
  | some e => { t with events := t.events.set i { e with token := k } }
  | none => t

end Tokenizer

/-! ## Constants

Modelled from the spec and from the source's own doc comments
(`constant.rs` is not among the provided sources): the maximum scheme
size is 31 (inclusive, on top of the first letter), the maximum domain
size 63, and the character-reference caps are 31 (named),
6 (hexadecimal), 7 (decimal). -/

/-- Modelled from the spec: `AUTOLINK_SCHEME_SIZE_MAX`. -/
def AUTOLINK_SCHEME_SIZE_MAX : Nat := 31

/-- Modelled from the spec: `AUTOLINK_DOMAIN_SIZE_MAX`. -/
def AUTOLINK_DOMAIN_SIZE_MAX : Nat := 63

/-- Modelled from the spec: `CHARACTER_REFERENCE_NAMED_SIZE_MAX`
(31, for `CounterClockwiseContourIntegral`). -/
def CHARACTER_REFERENCE_NAMED_SIZE_MAX : Nat := 31

/-- Modelled from the spec: `CHARACTER_REFERENCE_HEXADECIMAL_SIZE_MAX`. -/
def CHARACTER_REFERENCE_HEXADECIMAL_SIZE_MAX : Nat := 6

/-- Modelled from the spec: `CHARACTER_REFERENCE_DECIMAL_SIZE_MAX`. -/
def CHARACTER_REFERENCE_DECIMAL_SIZE_MAX : Nat := 7

/-- The bytes of an ASCII string, for writing inputs and table names. -/
def strBytes (s : String) : List Nat :=
  s.data.map Char.toNat

/-- Modelled from the spec: the named-entity table
`CHARACTER_REFERENCES`, a closed list of `(name, decoded)` pairs, looked
up by exact byte-slice comparison with no case normalization; one or
more casings are pre-enumerated per name (`AMP` and `amp` are both
present but other casings such as `Amp` are not).  Only a fragment of
the closed table is carried here; the lookups proved below depend only
on the membership facts the spec states. -/
def CHARACTER_REFERENCES : List (List Nat × String) :=
  [ (strBytes "AMP", "&"), (strBytes "amp", "&"),
    (strBytes "GT", ">"), (strBytes "gt", ">"),
    (strBytes "LT", "<"), (strBytes "lt", "<"),
    (strBytes "quot", "\""), (strBytes "copy", "©"),
    (strBytes "CounterClockwiseContourIntegral", "∳") ]

/-- `Slice::from_indices(bytes, start, end)`: the byte run
`bytes[start..end]`. -/
def sliceBytes (bytes : List Nat) (start stop : Nat) : List Nat :=
  (bytes.drop start).take (stop - start)

/-! ## Byte classes -/

/-- `u8::is_ascii_alphabetic`. -/
def isAsciiAlpha (b : Nat) : Bool :=
  (65 ≤ b && b ≤ 90) || (97 ≤ b && b ≤ 122)

/-- `u8::is_ascii_digit`. -/
def isAsciiDigit (b : Nat) : Bool :=
  48 ≤ b && b ≤ 57

/-- `u8::is_ascii_alphanumeric`. -/
def isAsciiAlphanumeric (b : Nat) : Bool :=
  isAsciiDigit b || isAsciiAlpha b

/-- `u8::is_ascii_hexdigit`. -/
def isAsciiHexdigit (b : Nat) : Bool :=
  isAsciiDigit b || (65 ≤ b && b ≤ 70) || (97 ≤ b && b ≤ 102)

/-- The pattern `b'+' | b'-' | b'.' | b'0'..=b'9' | b'A'..=b'Z' |
b'a'..=b'z'` used for scheme bytes. -/
def isSchemeByte (b : Nat) : Bool :=
  b == 43 || b == 45 || b == 46 || isAsciiDigit b || isAsciiAlpha b

/-- The atext pattern `b'#'..=b'\'' | b'*' | b'+' | b'-'..=b'9' | b'=' |
b'?' | b'A'..=b'Z' | b'^'..=b'~'`. -/
def isAtextByte (b : Nat) : Bool :=
  (35 ≤ b && b ≤ 39) || b == 42 || b == 43 || (45 ≤ b && b ≤ 57) ||
    b == 61 || b == 63 || (65 ≤ b && b ≤ 90) || (94 ≤ b && b ≤ 126)

/-- The forbidden URL-body pattern `None | Some(b'\0'..=0x1F | b' ' |
b'<' | 0x7F)` (ASCII control, space, or `<`). -/
def isUrlForbidden (b : Nat) : Bool :=
  b ≤ 0x1F || b == 32 || b == 60 || b == 0x7F

/-- The alphanumeric-or-dash pattern `b'-' | b'0'..=b'9' | b'A'..=b'Z' |
b'a'..=b'z'` of `email_value`. -/
def isLabelByte (b : Nat) : Bool :=
  b == 45 || isAsciiAlphanumeric b

/-! ## The autolink recognizer (`src/construct/autolink.rs`) -/

open Tokenizer in
/-- `autolink::start`: at `<` with the construct enabled, emit the
opening marker and the provisional `AutolinkProtocol` enter. -/
def autolinkStart (t : Tokenizer) : Tokenizer × State :=
  match t.current with
  | some b =>
    if b == 60 && t.constructsAutolink then
      let t := t.enter .Autolink
      let t := t.enter .AutolinkMarker
      let t := t.consume
      let t := t.exit .AutolinkMarker
      let t := t.enter .AutolinkProtocol
      (t, .Next .AutolinkOpen)
    else (t, .Nok)
  | none => (t, .Nok)

/-- `autolink::open`: after `<`; an ASCII letter starts the ambiguous
scheme-or-email run, anything else retries as email atext. -/
def autolinkOpen (t : Tokenizer) : Tokenizer × State :=
  match t.current with
  | some b =>
    if isAsciiAlpha b then
      (t.consume, .Next .AutolinkSchemeOrEmailAtext)
    else (t, .Retry .AutolinkEmailAtext)
  | none => (t, .Retry .AutolinkEmailAtext)

/-- `autolink::scheme_or_email_atext`: after the first letter; a scheme
byte starts counting (the first letter from `open` counts too). -/
def autolinkSchemeOrEmailAtext (t : Tokenizer) : Tokenizer × State :=
  match t.current with
  | some b =>
    if isSchemeByte b then
      ({ t with size := 1 }, .Retry .AutolinkSchemeInsideOrEmailAtext)
    else (t, .Retry .AutolinkEmailAtext)
  | none => (t, .Retry .AutolinkEmailAtext)

/-- `autolink::scheme_inside_or_email_atext`: inside the ambiguous run;
`:` commits to URL, scheme bytes accumulate under the cap, anything
else (cap overflow included) re-dispatches to email atext. -/
def autolinkSchemeInsideOrEmailAtext (t : Tokenizer) : Tokenizer × State :=
  match t.current with
  | some b =>
    if b == 58 then
      ({ t.consume with size := 0 }, .Next .AutolinkUrlInside)
    else if isSchemeByte b && decide (t.size < AUTOLINK_SCHEME_SIZE_MAX) then
      ({ t with size := t.size + 1 }.consume,
        .Next .AutolinkSchemeInsideOrEmailAtext)
    else ({ t with size := 0 }, .Retry .AutolinkEmailAtext)
  | none => ({ t with size := 0 }, .Retry .AutolinkEmailAtext)

open Tokenizer in
/-- `autolink::url_inside`: the raw URL body, terminated by `>`;
control, space, `<` or end of input is `Nok`. -/
def autolinkUrlInside (t : Tokenizer) : Tokenizer × State :=
  match t.current with
  | some b =>
    if b == 62 then
      let t := t.exit .AutolinkProtocol
      let t := t.enter .AutolinkMarker
      let t := t.consume
      let t := t.exit .AutolinkMarker
      let t := t.exit .Autolink
      (t, .Ok)
    else if isUrlForbidden b then (t, .Nok)
    else (t.consume, .Next .AutolinkUrlInside)
  | none => (t, .Nok)

/-- `autolink::email_atext`: scan atext bytes until `@`. -/
def autolinkEmailAtext (t : Tokenizer) : Tokenizer × State :=
  match t.current with
  | some b =>
    if b == 64 then (t.consume, .Next .AutolinkEmailAtSignOrDot)
    else if isAtextByte b then (t.consume, .Next .AutolinkEmailAtext)
    else (t, .Nok)
  | none => (t, .Nok)

/-- `autolink::email_at_sign_or_dot`: directly after `@` or `.`, only an
ASCII alphanumeric may start the label (zero-width re-dispatch). -/
def autolinkEmailAtSignOrDot (t : Tokenizer) : Tokenizer × State :=
  match t.current with
  | some b =>
    if isAsciiAlphanumeric b then (t, .Retry .AutolinkEmailValue)
    else (t, .Nok)
  | none => (t, .Nok)

open Tokenizer in
/-- `autolink::email_label`: in the label where `.` and `>` are allowed;
`>` closes the autolink and retags the `AutolinkProtocol` pair by index
to `AutolinkEmail`. -/
def autolinkEmailLabel (t : Tokenizer) : Tokenizer × State :=
  match t.current with
  | some b =>
    if b == 46 then
      ({ t with size := 0 }.consume, .Next .AutolinkEmailAtSignOrDot)
    else if b == 62 then
      let t := { t with size := 0 }
      let index := t.events.length
      let t := t.exit .AutolinkProtocol
      -- Change the token type.
      let t := t.setToken (index - 1) .AutolinkEmail
      let t := t.setToken index .AutolinkEmail
      let t := t.enter .AutolinkMarker
      let t := t.consume
      let t := t.exit .AutolinkMarker
      let t := t.exit .Autolink
      (t, .Ok)
    else (t, .Retry .AutolinkEmailValue)
  | none => (t, .Retry .AutolinkEmailValue)

/-- `autolink::email_value`: in the label where `.` and `>` are *not*
allowed; alphanumeric or `-` accumulates under the domain cap, a `-`
routes back here (so `.`/`>` may not directly follow it). -/
def autolinkEmailValue (t : Tokenizer) : Tokenizer × State :=
  match t.current with
  | some b =>
    if isLabelByte b && decide (t.size < AUTOLINK_DOMAIN_SIZE_MAX) then
      let name : StateName :=
        if b == 45 then .AutolinkEmailValue else .AutolinkEmailLabel
      ({ t with size := t.size + 1 }.consume, .Next name)
    else ({ t with size := 0 }, .Nok)
  | none => ({ t with size := 0 }, .Nok)

/-! ## The character-reference recognizer
(`src/construct/character_reference.rs`) -/

open Tokenizer in
/-- `character_reference::start`: at `&` with the construct enabled,
emit the marker and continue. -/
def characterReferenceStart (t : Tokenizer) : Tokenizer × State :=
  if t.constructsCharacterReference && t.current == some 38 then
    let t := t.enter .CharacterReference
    let t := t.enter .CharacterReferenceMarker
    let t := t.consume
    let t := t.exit .CharacterReferenceMarker
    (t, .Next .CharacterReferenceOpen)
  else (t, .Nok)

open Tokenizer in
/-- `character_reference::open`: after `&`; `#` selects the numeric
sub-path, anything else sets the named sentinel and retries in value. -/
def characterReferenceOpen (t : Tokenizer) : Tokenizer × State :=
  if t.current == some 35 then
    let t := t.enter .CharacterReferenceMarkerNumeric
    let t := t.consume
    let t := t.exit .CharacterReferenceMarkerNumeric
    (t, .Next .CharacterReferenceNumeric)
  else
    let t := { t with marker := 38 }
    let t := t.enter .CharacterReferenceValue
    (t, .Retry .CharacterReferenceValue)

open Tokenizer in
/-- `character_reference::numeric`: after `#`; `x`/`X` selects
hexadecimal, a digit defaults to decimal. -/
def characterReferenceNumeric (t : Tokenizer) : Tokenizer × State :=
  if t.current == some 120 || t.current == some 88 then
    let t := t.enter .CharacterReferenceMarkerHexadecimal
    let t := t.consume
    let t := t.exit .CharacterReferenceMarkerHexadecimal
    let t := t.enter .CharacterReferenceValue
    let t := { t with marker := 120 }
    (t, .Next .CharacterReferenceValue)
  else
    let t := t.enter .CharacterReferenceValue
    let t := { t with marker := 35 }
    (t, .Retry .CharacterReferenceValue)

open Tokenizer in
/-- `character_reference::value`: the shared value accumulator keyed by
the sentinel `marker`; a `;` with `size > 0` terminates (for the named
sub-path only when the accumulated slice is in the table), a byte of the
sentinel's class accumulates under the sentinel's cap, anything else is
`Nok` with the scratch reset.  The sentinel values other than
`&`/`x`/`#` hit `unreachable!` in the source (an internal assertion);
the model routes them to the reset-and-`Nok` fall-through, and the
reachability invariant proved below shows they never occur in a run. -/
def characterReferenceValue (t : Tokenizer) : Tokenizer × State :=
  if t.current == some 59 && decide (0 < t.size) then
    -- Named.
    if t.marker == 38 &&
        !(CHARACTER_REFERENCES.any fun d =>
          d.1 == sliceBytes t.bytes (t.point - t.size) t.point) then
      ({ t with marker := 0, size := 0 }, .Nok)
    else
      let t := t.exit .CharacterReferenceValue
      let t := t.enter .CharacterReferenceMarkerSemi
      let t := t.consume
      let t := t.exit .CharacterReferenceMarkerSemi
      let t := t.exit .CharacterReference
      ({ t with marker := 0, size := 0 }, .Ok)
  else
    let mx : Nat :=
      if t.marker == 38 then CHARACTER_REFERENCE_NAMED_SIZE_MAX
      else if t.marker == 120 then CHARACTER_REFERENCE_HEXADECIMAL_SIZE_MAX
      else if t.marker == 35 then CHARACTER_REFERENCE_DECIMAL_SIZE_MAX
      else 0
    let test : Nat → Bool :=
      if t.marker == 38 then isAsciiAlphanumeric
      else if t.marker == 120 then isAsciiHexdigit
      else if t.marker == 35 then isAsciiDigit
      else fun _ => false
    match t.current with
    | some b =>
      if decide (t.size < mx) && test b then
        ({ t with size := t.size + 1 }.consume, .Next .CharacterReferenceValue)
      else ({ t with marker := 0, size := 0 }, .Nok)
    | none => ({ t with marker := 0, size := 0 }, .Nok)

/-! ## The driver -/

/-- Dispatch a state name to its state function. -/
def step : StateName → Tokenizer → Tokenizer × State
  | .AutolinkStart, t => autolinkStart t
  | .AutolinkOpen, t => autolinkOpen t
  | .AutolinkSchemeOrEmailAtext, t => autolinkSchemeOrEmailAtext t
  | .AutolinkSchemeInsideOrEmailAtext, t => autolinkSchemeInsideOrEmailAtext t
  | .AutolinkUrlInside, t => autolinkUrlInside t
  | .AutolinkEmailAtext, t => autolinkEmailAtext t
  | .AutolinkEmailAtSignOrDot, t => autolinkEmailAtSignOrDot t
  | .AutolinkEmailLabel, t => autolinkEmailLabel t
  | .AutolinkEmailValue, t => autolinkEmailValue t
  | .CharacterReferenceStart, t => characterReferenceStart t
  | .CharacterReferenceOpen, t => characterReferenceOpen t
  | .CharacterReferenceNumeric, t => characterReferenceNumeric t
  | .CharacterReferenceValue, t => characterReferenceValue t

/-- Modelled from the spec: the driving trampoline — apply transitions
until `Ok` (`true`) or `Nok` (`false`).  `Next` and `Retry` both
continue at the named state (the consume, if any, was already done by
the returning function); fuel bounds the iteration and `none` means the
bound was hit. -/
def run : Nat → StateName → Tokenizer → Option (Tokenizer × Bool)
  | 0, _, _ => none
  | fuel + 1, name, t =>
    match step name t with
    | (t', .Ok) => some (t', true)
    | (t', .Nok) => some (t', false)
    | (t', .Next n') => run fuel n' t'
    | (t', .Retry n') => run fuel n' t'

/-- Modelled from the spec: one construct attempt with
checkpoint/rollback — the checkpoint records the cursor and the
event-log length; on `Nok` the engine restores the cursor and truncates
the event log back to the recorded length. -/
def attempt (fuel : Nat) (name : StateName) (t : Tokenizer) :
    Option (Tokenizer × Bool) :=
  match run fuel name t with
  | none => none
  | some (t', true) => some (t', true)
  | some (t', false) =>
    some ({ t' with point := t.point
                    events := t'.events.take t.events.length }, false)

/-- A fresh tokenizer over `bytes` with both constructs enabled and a
neutral scratch. -/
def initT (bytes : List Nat) : Tokenizer :=
  { bytes := bytes, point := 0, events := [], marker := 0, size := 0,
    constructsAutolink := true, constructsCharacterReference := true }

/-- The scratch-record invariant at each state: the autolink recognizer
never touches `marker` and holds `size` at 0 except inside the two
counting loops; the character-reference value state always carries one
of the three sentinel markers. -/
def scratchInv : StateName → Tokenizer → Prop
  | .AutolinkStart, t => t.marker = 0 ∧ t.size = 0
  | .AutolinkOpen, t => t.marker = 0 ∧ t.size = 0
  | .AutolinkSchemeOrEmailAtext, t => t.marker = 0 ∧ t.size = 0
  | .AutolinkSchemeInsideOrEmailAtext, t => t.marker = 0
  | .AutolinkUrlInside, t => t.marker = 0 ∧ t.size = 0
  | .AutolinkEmailAtext, t => t.marker = 0 ∧ t.size = 0
  | .AutolinkEmailAtSignOrDot, t => t.marker = 0 ∧ t.size = 0
  | .AutolinkEmailLabel, t => t.marker = 0
  | .AutolinkEmailValue, t => t.marker = 0
  | .CharacterReferenceStart, t => t.marker = 0 ∧ t.size = 0
  | .CharacterReferenceOpen, t => t.marker = 0 ∧ t.size = 0
  | .CharacterReferenceNumeric, t => t.marker = 0 ∧ t.size = 0
  | .CharacterReferenceValue, t =>
      t.marker = 38 ∨ t.marker = 120 ∨ t.marker = 35

/-- What one step must guarantee: terminal transitions leave the
scratch neutral, continuations re-establish `scratchInv`. -/
def postScratch : Tokenizer × State → Prop
  | (t', .Ok) => t'.marker = 0 ∧ t'.size = 0
  | (t', .Nok) => t'.marker = 0 ∧ t'.size = 0
  | (t', .Next n') => scratchInv n' t'
  | (t', .Retry n') => scratchInv n' t'

/-- The event-log invariant during an attempt that started with log
`e₀`: the original log is a prefix of the current one and, once past a
`start` state, at least one event has been appended (so the in-place
retag of `email_label` never reaches back into `e₀`). -/
def eventsInv (e₀ : List Event) (name : StateName) (t : Tokenizer) :
    Prop :=
  e₀ <+: t.events ∧
    (name ≠ .AutolinkStart → name ≠ .CharacterReferenceStart →
      e₀.length + 1 ≤ t.events.length)

/-- What one step must guarantee for the event log: terminal
transitions keep `e₀` a prefix, continuations re-establish
`eventsInv`. -/
def postEvents (e₀ : List Event) : Tokenizer × State → Prop
  | (t', .Next n') => eventsInv e₀ n' t'
  | (t', .Retry n') => eventsInv e₀ n' t'
  | (t', _) => e₀ <+: t'.events

/-! ## Driver lemmas -/

theorem enter_marker (t : Tokenizer) (k : Token) :
    (t.enter k).marker = t.marker := rfl

theorem enter_size (t : Tokenizer) (k : Token) :
    (t.enter k).size = t.size := rfl

theorem exit_marker (t : Tokenizer) (k : Token) :
    (t.exit k).marker = t.marker := rfl

theorem exit_size (t : Tokenizer) (k : Token) :
    (t.exit k).size = t.size := rfl

theorem consume_marker (t : Tokenizer) :
    t.consume.marker = t.marker := rfl

theorem consume_size (t : Tokenizer) :
    t.consume.size = t.size := rfl

theorem setToken_marker (t : Tokenizer) (i : Nat) (k : Token) :
    (t.setToken i k).marker = t.marker := by
  unfold Tokenizer.setToken
  split <;> rfl

theorem setToken_size (t : Tokenizer) (i : Nat) (k : Token) :
    (t.setToken i k).size = t.size := by
  unfold Tokenizer.setToken
  split <;> rfl

theorem run_succ_ok {name : StateName} {t t' : Tokenizer} (fuel : Nat)
    (h : step name t = (t', .Ok)) :
    run (fuel + 1) name t = some (t', true) := by
  simp [run, h]

theorem run_succ_nok {name : StateName} {t t' : Tokenizer} (fuel : Nat)
    (h : step name t = (t', .Nok)) :
    run (fuel + 1) name t = some (t', false) := by
  simp [run, h]

theorem run_succ_next {name n' : StateName} {t t' : Tokenizer} (fuel : Nat)
    (h : step name t = (t', .Next n')) :
    run (fuel + 1) name t = run fuel n' t' := by
  simp [run, h]

theorem run_succ_retry {name n' : StateName} {t t' : Tokenizer} (fuel : Nat)
    (h : step name t = (t', .Retry n')) :
    run (fuel + 1) name t = run fuel n' t' := by
  simp [run, h]

/-- More fuel never changes a result that was already reached. -/
theorem run_mono {fuel fuel' : Nat} {name : StateName} {t : Tokenizer}
    {r : Tokenizer × Bool} (hle : fuel ≤ fuel')
    (h : run fuel name t = some r) :
    run fuel' name t = some r := by
  induction fuel generalizing fuel' name t with
  | zero => simp [run] at h
  | succ n ih =>
    obtain ⟨m, rfl⟩ : ∃ m, fuel' = m + 1 :=
      ⟨fuel' - 1, by omega⟩
    have hnm : n ≤ m := by omega
    rw [run] at h ⊢
    cases hs : step name t with
    | mk t' s =>
      rw [hs] at h
      cases s with
      | Ok => exact h
      | Nok => exact h
      | Next n' => exact ih hnm h
      | Retry n' => exact ih hnm h

/-- Read the byte under the cursor off a suffix decomposition of the
input. -/
theorem current_of_drop {t : Tokenizer} {b : Nat} {rest : List Nat}
    (h : t.bytes.drop t.point = b :: rest) :
    t.current = some b := by
  have h0 : (t.bytes.drop t.point)[0]? = some b := by rw [h]; simp
  rwa [List.getElem?_drop, Nat.add_zero] at h0

/-- Advance the suffix decomposition across one consumed byte. -/
theorem drop_succ_of_drop {l : List Nat} {p b : Nat} {rest : List Nat}
    (h : l.drop p = b :: rest) :
    l.drop (p + 1) = rest := by
  have h1 : (l.drop p).drop 1 = rest := by rw [h]; rfl
  rw [List.drop_drop] at h1
  exact h1

/-! ## Single-step characterizations -/

theorem step_start_open {t : Tokenizer} (hb : t.current = some 60)
    (hc : t.constructsAutolink = true) :
    step .AutolinkStart t =
      ({ t with point := t.point + 1
                events := t.events ++
                  [⟨.enter, .Autolink, t.point⟩,
                   ⟨.enter, .AutolinkMarker, t.point⟩,
                   ⟨.exit, .AutolinkMarker, t.point + 1⟩,
                   ⟨.enter, .AutolinkProtocol, t.point + 1⟩] },
        .Next .AutolinkOpen) := by
  simp [step, autolinkStart, hb, hc, Tokenizer.consume, Tokenizer.enter,
    Tokenizer.exit]

theorem step_open_letter {t : Tokenizer} {b : Nat} (hb : t.current = some b)
    (ha : isAsciiAlpha b = true) :
    step .AutolinkOpen t =
      ({ t with point := t.point + 1 }, .Next .AutolinkSchemeOrEmailAtext) := by
  simp [step, autolinkOpen, hb, ha, Tokenizer.consume]

theorem step_open_other {t : Tokenizer} {b : Nat} (hb : t.current = some b)
    (ha : isAsciiAlpha b = false) :
    step .AutolinkOpen t = (t, .Retry .AutolinkEmailAtext) := by
  simp [step, autolinkOpen, hb, ha]

theorem step_schemeOrEmail_scheme {t : Tokenizer} {b : Nat}
    (hb : t.current = some b) (hs : isSchemeByte b = true) :
    step .AutolinkSchemeOrEmailAtext t =
      ({ t with size := 1 }, .Retry .AutolinkSchemeInsideOrEmailAtext) := by
  simp [step, autolinkSchemeOrEmailAtext, hb, hs]

theorem step_schemeOrEmail_other {t : Tokenizer} {b : Nat}
    (hb : t.current = some b) (hs : isSchemeByte b = false) :
    step .AutolinkSchemeOrEmailAtext t = (t, .Retry .AutolinkEmailAtext) := by
  simp [step, autolinkSchemeOrEmailAtext, hb, hs]

theorem schemeByte_ne_colon {b : Nat} (hs : isSchemeByte b = true) : b ≠ 58 := by
  intro h
  subst h
  simp [isSchemeByte, isAsciiDigit, isAsciiAlpha] at hs

theorem step_schemeInside_colon {t : Tokenizer} (hb : t.current = some 58) :
    step .AutolinkSchemeInsideOrEmailAtext t =
      ({ t with point := t.point + 1, size := 0 }, .Next .AutolinkUrlInside) := by
  simp [step, autolinkSchemeInsideOrEmailAtext, hb, Tokenizer.consume]

theorem step_schemeInside_accept {t : Tokenizer} {b : Nat}
    (hb : t.current = some b) (hs : isSchemeByte b = true)
    (hlt : t.size < AUTOLINK_SCHEME_SIZE_MAX) :
    step .AutolinkSchemeInsideOrEmailAtext t =
      ({ t with point := t.point + 1, size := t.size + 1 },
        .Next .AutolinkSchemeInsideOrEmailAtext) := by
  have hne : b ≠ 58 := schemeByte_ne_colon hs
  simp [step, autolinkSchemeInsideOrEmailAtext, hb, hne, hs, hlt,
    Tokenizer.consume]

theorem step_schemeInside_overflow {t : Tokenizer} {b : Nat}
    (hb : t.current = some b) (hne : b ≠ 58)
    (hcap : isSchemeByte b = false ∨ ¬ t.size < AUTOLINK_SCHEME_SIZE_MAX) :
    step .AutolinkSchemeInsideOrEmailAtext t =
      ({ t with size := 0 }, .Retry .AutolinkEmailAtext) := by
  rcases hcap with hs | hs <;>
    simp [step, autolinkSchemeInsideOrEmailAtext, hb, hne, hs]

theorem step_urlInside_body {t : Tokenizer} {b : Nat}
    (hb : t.current = some b) (hne : b ≠ 62) (hf : isUrlForbidden b = false) :
    step .AutolinkUrlInside t =
      ({ t with point := t.point + 1 }, .Next .AutolinkUrlInside) := by
  simp [step, autolinkUrlInside, hb, hne, hf, Tokenizer.consume]

theorem step_urlInside_close {t : Tokenizer} (hb : t.current = some 62) :
    step .AutolinkUrlInside t =
      ({ t with point := t.point + 1
                events := t.events ++
                  [⟨.exit, .AutolinkProtocol, t.point⟩,
                   ⟨.enter, .AutolinkMarker, t.point⟩,
                   ⟨.exit, .AutolinkMarker, t.point + 1⟩,
                   ⟨.exit, .Autolink, t.point + 1⟩] }, .Ok) := by
  simp [step, autolinkUrlInside, hb, Tokenizer.consume, Tokenizer.enter,
    Tokenizer.exit]

theorem step_emailAtext_at {t : Tokenizer} (hb : t.current = some 64) :
    step .AutolinkEmailAtext t =
      ({ t with point := t.point + 1 }, .Next .AutolinkEmailAtSignOrDot) := by
  simp [step, autolinkEmailAtext, hb, Tokenizer.consume]

theorem step_emailAtext_nok {t : Tokenizer} {b : Nat}
    (hb : t.current = some b) (hne : b ≠ 64) (ha : isAtextByte b = false) :
    step .AutolinkEmailAtext t = (t, .Nok) := by
  simp [step, autolinkEmailAtext, hb, hne, ha]

theorem step_atSignOrDot_alnum {t : Tokenizer} {b : Nat}
    (hb : t.current = some b) (ha : isAsciiAlphanumeric b = true) :
    step .AutolinkEmailAtSignOrDot t = (t, .Retry .AutolinkEmailValue) := by
  simp [step, autolinkEmailAtSignOrDot, hb, ha]

theorem alnum_facts {b : Nat} (ha : isAsciiAlphanumeric b = true) :
    b ≠ 45 ∧ b ≠ 46 ∧ b ≠ 62 ∧ isLabelByte b = true := by
  refine ⟨?_, ?_, ?_, by simp [isLabelByte, ha]⟩ <;>
    · intro h
      subst h
      simp [isAsciiAlphanumeric, isAsciiDigit, isAsciiAlpha] at ha

theorem step_emailLabel_other {t : Tokenizer} {b : Nat}
    (hb : t.current = some b) (h46 : b ≠ 46) (h62 : b ≠ 62) :
    step .AutolinkEmailLabel t = (t, .Retry .AutolinkEmailValue) := by
  simp [step, autolinkEmailLabel, hb, h46, h62]

theorem step_emailValue_accept {t : Tokenizer} {b : Nat}
    (hb : t.current = some b) (ha : isAsciiAlphanumeric b = true)
    (hlt : t.size < AUTOLINK_DOMAIN_SIZE_MAX) :
    step .AutolinkEmailValue t =
      ({ t with point := t.point + 1, size := t.size + 1 },
        .Next .AutolinkEmailLabel) := by
  obtain ⟨h45, -, -, hl⟩ := alnum_facts ha
  simp [step, autolinkEmailValue, hb, hl, hlt, h45, Tokenizer.consume]

theorem step_emailValue_nok {t : Tokenizer} {b : Nat}
    (hb : t.current = some b)
    (h : isLabelByte b = false ∨ ¬ t.size < AUTOLINK_DOMAIN_SIZE_MAX) :
    step .AutolinkEmailValue t = ({ t with size := 0 }, .Nok) := by
  rcases h with h | h <;> simp [step, autolinkEmailValue, hb, h]

theorem digit_facts {b : Nat} (hd : isAsciiDigit b = true) : b ≠ 59 := by
  intro h
  subst h
  simp [isAsciiDigit] at hd

theorem step_charRefValue_decimal_accept {t : Tokenizer} {b : Nat}
    (hb : t.current = some b) (hd : isAsciiDigit b = true)
    (hm : t.marker = 35) (hlt : t.size < CHARACTER_REFERENCE_DECIMAL_SIZE_MAX) :
    step .CharacterReferenceValue t =
      ({ t with point := t.point + 1, size := t.size + 1 },
        .Next .CharacterReferenceValue) := by
  have hne : b ≠ 59 := digit_facts hd
  simp [step, characterReferenceValue, hb, hne, hm, hd, hlt, Tokenizer.consume]

theorem step_charRefValue_decimal_overflow {t : Tokenizer} {b : Nat}
    (hb : t.current = some b) (hne : b ≠ 59) (hm : t.marker = 35)
    (h : ¬ t.size < CHARACTER_REFERENCE_DECIMAL_SIZE_MAX) :
    step .CharacterReferenceValue t =
      ({ t with marker := 0, size := 0 }, .Nok) := by
  simp [step, characterReferenceValue, hb, hne, hm, h]

theorem step_charRefStart {t : Tokenizer} (hb : t.current = some 38)
    (hc : t.constructsCharacterReference = true) :
    step .CharacterReferenceStart t =
      ({ t with point := t.point + 1
                events := t.events ++
                  [⟨.enter, .CharacterReference, t.point⟩,
                   ⟨.enter, .CharacterReferenceMarker, t.point⟩,
                   ⟨.exit, .CharacterReferenceMarker, t.point + 1⟩] },
        .Next .CharacterReferenceOpen) := by
  simp [step, characterReferenceStart, hb, hc, Tokenizer.consume,
    Tokenizer.enter, Tokenizer.exit]

theorem step_charRefOpen_numeric {t : Tokenizer} (hb : t.current = some 35) :
    step .CharacterReferenceOpen t =
      ({ t with point := t.point + 1
                events := t.events ++
                  [⟨.enter, .CharacterReferenceMarkerNumeric, t.point⟩,
                   ⟨.exit, .CharacterReferenceMarkerNumeric, t.point + 1⟩] },
        .Next .CharacterReferenceNumeric) := by
  simp [step, characterReferenceOpen, hb, Tokenizer.consume,
    Tokenizer.enter, Tokenizer.exit]

theorem step_charRefNumeric_decimal {t : Tokenizer} {b : Nat}
    (hb : t.current = some b) (h120 : b ≠ 120) (h88 : b ≠ 88) :
    step .CharacterReferenceNumeric t =
      ({ t with marker := 35
                events := t.events ++
                  [⟨.enter, .CharacterReferenceValue, t.point⟩] },
        .Retry .CharacterReferenceValue) := by
  simp [step, characterReferenceNumeric, hb, h120, h88, Tokenizer.enter]

/-! ## Scanning loops -/

/-- Scanning a run of scheme bytes inside the ambiguous scheme/email
state consumes them one per step while the cap is respected. -/
theorem schemeInside_scan (cs : List Nat) :
    ∀ (fuel : Nat) (t : Tokenizer) (rest : List Nat),
    (∀ b ∈ cs, isSchemeByte b = true) →
    t.bytes.drop t.point = cs ++ rest →
    t.size + cs.length ≤ AUTOLINK_SCHEME_SIZE_MAX →
    run (fuel + cs.length) .AutolinkSchemeInsideOrEmailAtext t =
      run fuel .AutolinkSchemeInsideOrEmailAtext
        { t with point := t.point + cs.length, size := t.size + cs.length } :=
  by
  induction cs with
  | nil =>
    intro fuel t rest _ _ _
    simp
  | cons c cs ih =>
    intro fuel t rest hall hdrop hcap
    have hc : t.current = some c := current_of_drop (by simpa using hdrop)
    have hstep := step_schemeInside_accept hc (hall c (by simp))
      (by simp [AUTOLINK_SCHEME_SIZE_MAX] at hcap ⊢; omega)
    have harith : fuel + (c :: cs).length = (fuel + cs.length) + 1 := by
      simp [Nat.add_assoc]
    rw [harith, run_succ_next _ hstep]
    rw [ih (fuel) _ rest (fun b hb => hall b (by simp [hb]))
      (by simpa using drop_succ_of_drop (l := t.bytes) (by simpa using hdrop))
      (by simp at hcap ⊢; omega)]
    have h1 : t.point + 1 + cs.length = t.point + (cs.length + 1) := by omega
    have h2 : t.size + 1 + cs.length = t.size + (cs.length + 1) := by omega
    simp [h1, h2]

/-- Scanning a run of allowed URL-body bytes consumes them without
touching the event log or scratch. -/
theorem urlInside_scan (body : List Nat) :
    ∀ (fuel : Nat) (t : Tokenizer) (rest : List Nat),
    (∀ b ∈ body, isUrlForbidden b = false ∧ b ≠ 62) →
    t.bytes.drop t.point = body ++ rest →
    run (fuel + body.length) .AutolinkUrlInside t =
      run fuel .AutolinkUrlInside { t with point := t.point + body.length } :=
  by
  induction body with
  | nil =>
    intro fuel t rest _ _
    simp
  | cons c cs ih =>
    intro fuel t rest hall hdrop
    have hc : t.current = some c := current_of_drop (by simpa using hdrop)
    have hstep := step_urlInside_body hc (hall c (by simp)).2 (hall c (by simp)).1
    have harith : fuel + (c :: cs).length = (fuel + cs.length) + 1 := by
      simp [Nat.add_assoc]
    rw [harith, run_succ_next _ hstep]
    rw [ih fuel _ rest (fun b hb => hall b (by simp [hb]))
      (by simpa using drop_succ_of_drop (l := t.bytes) (by simpa using hdrop))]
    have h1 : t.point + 1 + cs.length = t.point + (cs.length + 1) := by omega
    simp [h1]

/-- Scanning a run of alphanumeric label bytes from the
`email_label` state alternates with `email_value`, two steps per byte,
while the domain cap is respected. -/
theorem emailLabel_scan (cs : List Nat) :
    ∀ (fuel : Nat) (t : Tokenizer) (rest : List Nat),
    (∀ b ∈ cs, isAsciiAlphanumeric b = true) →
    t.bytes.drop t.point = cs ++ rest →
    t.size + cs.length ≤ AUTOLINK_DOMAIN_SIZE_MAX →
    run (fuel + 2 * cs.length) .AutolinkEmailLabel t =
      run fuel .AutolinkEmailLabel
        { t with point := t.point + cs.length, size := t.size + cs.length } :=
  by
  induction cs with
  | nil =>
    intro fuel t rest _ _ _
    simp
  | cons c cs ih =>
    intro fuel t rest hall hdrop hcap
    have hc : t.current = some c := current_of_drop (by simpa using hdrop)
    obtain ⟨-, h46, h62, -⟩ := alnum_facts (hall c (by simp))
    have hstep1 := step_emailLabel_other hc h46 h62
    have hstep2 := step_emailValue_accept hc (hall c (by simp))
      (by simp [AUTOLINK_DOMAIN_SIZE_MAX] at hcap ⊢; omega)
    have harith : fuel + 2 * (c :: cs).length = ((fuel + 2 * cs.length) + 1) + 1 := by
      simp [Nat.mul_add]
      omega
    rw [harith, run_succ_retry _ hstep1, run_succ_next _ hstep2]
    rw [ih fuel _ rest (fun b hb => hall b (by simp [hb]))
      (by simpa using drop_succ_of_drop (l := t.bytes) (by simpa using hdrop))
      (by simp at hcap ⊢; omega)]
    have h1 : t.point + 1 + cs.length = t.point + (cs.length + 1) := by omega
    have h2 : t.size + 1 + cs.length = t.size + (cs.length + 1) := by omega
    simp [h1, h2]

/-- Scanning a run of decimal digits in the character-reference value
state consumes them one per step while the decimal cap is respected. -/
theorem charRefValue_scan_decimal (cs : List Nat) :
    ∀ (fuel : Nat) (t : Tokenizer) (rest : List Nat),
    (∀ b ∈ cs, isAsciiDigit b = true) →
    t.marker = 35 →
    t.bytes.drop t.point = cs ++ rest →
    t.size + cs.length ≤ CHARACTER_REFERENCE_DECIMAL_SIZE_MAX →
    run (fuel + cs.length) .CharacterReferenceValue t =
      run fuel .CharacterReferenceValue
        { t with point := t.point + cs.length, size := t.size + cs.length } :=
  by
  induction cs with
  | nil =>
    intro fuel t rest _ _ _ _
    simp
  | cons c cs ih =>
    intro fuel t rest hall hm hdrop hcap
    have hc : t.current = some c := current_of_drop (by simpa using hdrop)
    have hstep := step_charRefValue_decimal_accept hc (hall c (by simp)) hm
      (by simp [CHARACTER_REFERENCE_DECIMAL_SIZE_MAX] at hcap ⊢; omega)
    have harith : fuel + (c :: cs).length = (fuel + cs.length) + 1 := by
      simp [Nat.add_assoc]
    rw [harith, run_succ_next _ hstep]
    rw [ih fuel { t with point := t.point + 1, size := t.size + 1 } rest
      (fun b hb => hall b (by simp [hb])) hm
      (drop_succ_of_drop (by simpa using hdrop))
      (by simp at hcap ⊢; omega)]
    have h1 : t.point + 1 + cs.length = t.point + (cs.length + 1) := by omega
    have h2 : t.size + 1 + cs.length = t.size + (cs.length + 1) := by omega
    simp [h1, h2]

/-! ## Claim theorems -/

/-- C6: with the construct's boolean toggle off, `start` returns `Nok`
for every current byte and position, leaving the tokenizer — cursor and
event log included — completely untouched; this holds for the autolink
and the character-reference recognizer alike. -/
theorem disabled_start_nok (t : Tokenizer) :
    (t.constructsAutolink = false → autolinkStart t = (t, .Nok)) ∧
    (t.constructsCharacterReference = false →
      characterReferenceStart t = (t, .Nok)) := by
  constructor
  · intro h
    unfold autolinkStart
    cases ht : t.current with
    | none => rfl
    | some b => simp [h]
  · intro h
    unfold characterReferenceStart
    simp [h]

/-- Witness for C6 at concrete disabled tokenizers. -/
theorem disabled_start_nok_witness :
    (autolinkStart
        { initT (strBytes "<a@b.c>") with constructsAutolink := false } =
      ({ initT (strBytes "<a@b.c>") with constructsAutolink := false },
        .Nok)) ∧
    (characterReferenceStart
        { initT (strBytes "&amp;") with
            constructsCharacterReference := false } =
      ({ initT (strBytes "&amp;") with
          constructsCharacterReference := false }, .Nok)) :=
  ⟨(disabled_start_nok _).1 rfl, (disabled_start_nok _).2 rfl⟩

/-- C2: in the named sub-path of the character-reference value state
(marker `&`, a `;` under the cursor, `size > 0`), the construct returns
`Ok` exactly when the accumulated byte slice is a name in the
named-entity table, by exact byte comparison; `&amp;` and `&AMP;`
succeed while `&Amp;` and `&foo;` fail as whole constructs. -/
theorem named_reference_table_gates_ok :
    (∀ t : Tokenizer, t.current = some 59 → t.marker = 38 → 0 < t.size →
      ((characterReferenceValue t).2 = .Ok ↔
        (CHARACTER_REFERENCES.any fun d =>
          d.1 == sliceBytes t.bytes (t.point - t.size) t.point) = true)) ∧
    (run 30 .CharacterReferenceStart (initT (strBytes "&amp;"))).map
      Prod.snd = some true ∧
    (run 30 .CharacterReferenceStart (initT (strBytes "&AMP;"))).map
      Prod.snd = some true ∧
    (run 30 .CharacterReferenceStart (initT (strBytes "&Amp;"))).map
      Prod.snd = some false ∧
    (run 30 .CharacterReferenceStart (initT (strBytes "&foo;"))).map
      Prod.snd = some false := by
  refine ⟨?_, by rfl, by rfl, by rfl, by rfl⟩
  intro t hb hm hs
  by_cases hmem : (CHARACTER_REFERENCES.any fun d =>
      d.1 == sliceBytes t.bytes (t.point - t.size) t.point) = true
  · simp [characterReferenceValue, hb, hm, hs, hmem]
  · simp [characterReferenceValue, hb, hm, hs, hmem]

/-- Witness for C2: the table gate at the concrete `&amp;` state. -/
theorem named_reference_table_gates_ok_witness :
    (characterReferenceValue
        { bytes := strBytes "&amp;", point := 4,
          events := [], marker := 38, size := 3,
          constructsAutolink := true,
          constructsCharacterReference := true }).2 = .Ok ↔
      (CHARACTER_REFERENCES.any fun d =>
        d.1 == sliceBytes (strBytes "&amp;") (4 - 3) 4) = true :=
  named_reference_table_gates_ok.1 _ rfl rfl (by decide)

/-- C4: accepting an email autolink at `>` retags the provisional
`AutolinkProtocol` Enter (emitted earlier, kept at its original list
index and original point) to `AutolinkEmail`, closes the span with an
`AutolinkEmail` Exit, and leaves every earlier event untouched — no
event is reordered or deleted; concretely, `<user@example.com>` yields
the retagged email event log and `<user@ex ample.com>` is `Nok`. -/
theorem email_retag_in_place :
    (∀ (t : Tokenizer) (es : List Event) (p : Nat),
      t.current = some 62 →
      t.events = es ++ [⟨.enter, .AutolinkProtocol, p⟩] →
      autolinkEmailLabel t =
        ({ t with point := t.point + 1
                  size := 0
                  events := es ++
                    [⟨.enter, .AutolinkEmail, p⟩,
                     ⟨.exit, .AutolinkEmail, t.point⟩,
                     ⟨.enter, .AutolinkMarker, t.point⟩,
                     ⟨.exit, .AutolinkMarker, t.point + 1⟩,
                     ⟨.exit, .Autolink, t.point + 1⟩] }, .Ok)) ∧
    (run 60 .AutolinkStart (initT (strBytes "<user@example.com>"))).map
        (fun r => (r.2, r.1.events)) =
      some (true,
        [⟨.enter, .Autolink, 0⟩,
         ⟨.enter, .AutolinkMarker, 0⟩,
         ⟨.exit, .AutolinkMarker, 1⟩,
         ⟨.enter, .AutolinkEmail, 1⟩,
         ⟨.exit, .AutolinkEmail, 17⟩,
         ⟨.enter, .AutolinkMarker, 17⟩,
         ⟨.exit, .AutolinkMarker, 18⟩,
         ⟨.exit, .Autolink, 18⟩]) ∧
    (run 60 .AutolinkStart (initT (strBytes "<user@ex ample.com>"))).map
      Prod.snd = some false := by
  refine ⟨?_, by rfl, by rfl⟩
  intro t es p hb hev
  have hlen : t.events.length = es.length + 1 := by simp [hev]
  simp only [autolinkEmailLabel, hb]
  norm_num
  simp only [Tokenizer.exit, Tokenizer.setToken, Tokenizer.enter,
    Tokenizer.consume, hev, hlen]
  simp [List.getElem?_append_right, List.set_append_right,
    List.append_assoc, List.getElem_append_right, Nat.sub_self]

/-- Witness for C4 at a concrete accepting state. -/
theorem email_retag_in_place_witness :
    autolinkEmailLabel
        { bytes := strBytes "<u@b>", point := 4,
          events := [⟨.enter, .Autolink, 0⟩,
                     ⟨.enter, .AutolinkMarker, 0⟩,
                     ⟨.exit, .AutolinkMarker, 1⟩,
                     ⟨.enter, .AutolinkProtocol, 1⟩],
          marker := 0, size := 1,
          constructsAutolink := true,
          constructsCharacterReference := true } =
      ({ bytes := strBytes "<u@b>", point := 5,
         events := [⟨.enter, .Autolink, 0⟩,
                    ⟨.enter, .AutolinkMarker, 0⟩,
                    ⟨.exit, .AutolinkMarker, 1⟩,
                    ⟨.enter, .AutolinkEmail, 1⟩,
                    ⟨.exit, .AutolinkEmail, 4⟩,
                    ⟨.enter, .AutolinkMarker, 4⟩,
                    ⟨.exit, .AutolinkMarker, 5⟩,
                    ⟨.exit, .Autolink, 5⟩],
         marker := 0, size := 0,
         constructsAutolink := true,
         constructsCharacterReference := true }, .Ok) := by
  have h := email_retag_in_place.1
    { bytes := strBytes "<u@b>", point := 4,
      events := [⟨.enter, .Autolink, 0⟩,
                 ⟨.enter, .AutolinkMarker, 0⟩,
                 ⟨.exit, .AutolinkMarker, 1⟩,
                 ⟨.enter, .AutolinkProtocol, 1⟩],
      marker := 0, size := 1,
      constructsAutolink := true,
      constructsCharacterReference := true }
    [⟨.enter, .Autolink, 0⟩,
     ⟨.enter, .AutolinkMarker, 0⟩,
     ⟨.exit, .AutolinkMarker, 1⟩] 1 (by rfl) (by rfl)
  simpa using h

/-- C8 counterexample: `&#1234567;` contains seven digits, which is
within the decimal sub-path's seven-digit cap, so the recognizer
accepts the reference — it does not yield `Nok` as claimed. -/
theorem decimal_1234567_accepted :
    ((run 30 .CharacterReferenceStart (initT (strBytes "&#1234567;"))).map
      Prod.snd = some true) ∧
    ¬ ((run 30 .CharacterReferenceStart (initT (strBytes "&#1234567;"))).map
      Prod.snd = some false) := by
  decide

/-- C8 (amended): the decimal sub-path accepts at most seven digits
before the `;`: `&#1234567;` (seven digits) is accepted, while any
decimal reference whose digit run has eight digits — such as
`&#12345678;` — is `Nok` for the whole construct, whatever follows the
eighth digit. -/
theorem decimal_eight_digit_cap :
    ((run 30 .CharacterReferenceStart (initT (strBytes "&#1234567;"))).map
      Prod.snd = some true) ∧
    ((run 30 .CharacterReferenceStart (initT (strBytes "&#12345678;"))).map
      Prod.snd = some false) ∧
    (∀ (ds rest : List Nat), ds.length = 8 →
      (∀ b ∈ ds, isAsciiDigit b = true) →
      ∃ t', run 30 .CharacterReferenceStart
          (initT (38 :: 35 :: (ds ++ rest))) = some (t', false)) := by
  refine ⟨by rfl, by rfl, ?_⟩
  intro ds rest hlen hall
  obtain ⟨d0, dtl, rfl⟩ : ∃ d0 dtl, ds = d0 :: dtl := by
    cases ds with
    | nil => simp at hlen
    | cons a l => exact ⟨a, l, rfl⟩
  have hdtl : dtl.length = 7 := by simpa using hlen
  obtain ⟨d8, hd8⟩ : ∃ d8, dtl.drop 6 = [d8] := by
    have h1 : (dtl.drop 6).length = 1 := by simp [hdtl]
    cases hds : dtl.drop 6 with
    | nil => rw [hds] at h1; simp at h1
    | cons a l =>
      rw [hds] at h1
      have hl : l = [] := by simpa using h1
      exact ⟨a, by rw [hl]⟩
  have htake : (dtl.take 6).length = 6 := by simp [hdtl]
  have hsplit : dtl = dtl.take 6 ++ [d8] := by
    conv_lhs => rw [← List.take_append_drop 6 dtl]
    rw [hd8]
  have hd0 : isAsciiDigit d0 = true := hall d0 (by simp)
  have hd8d : isAsciiDigit d8 = true := by
    refine hall d8 ?_
    have hmem : d8 ∈ dtl.drop 6 := by rw [hd8]; simp
    exact List.mem_cons_of_mem _ (List.drop_subset _ _ hmem)
  have hd0ne : d0 ≠ 120 ∧ d0 ≠ 88 := by
    constructor <;>
      · intro h
        subst h
        simp [isAsciiDigit] at hd0
  have hcs : (d0 :: dtl.take 6).length = 7 := by simp [htake]
  have hrun : run 11 .CharacterReferenceStart
      (initT (38 :: 35 :: d0 :: (dtl ++ rest))) =
      some ({ bytes := 38 :: 35 :: d0 :: (dtl ++ rest), point := 9,
              events := [⟨.enter, .CharacterReference, 0⟩,
                         ⟨.enter, .CharacterReferenceMarker, 0⟩,
                         ⟨.exit, .CharacterReferenceMarker, 1⟩,
                         ⟨.enter, .CharacterReferenceMarkerNumeric, 1⟩,
                         ⟨.exit, .CharacterReferenceMarkerNumeric, 2⟩,
                         ⟨.enter, .CharacterReferenceValue, 2⟩],
              marker := 0, size := 0,
              constructsAutolink := true,
              constructsCharacterReference := true }, false) := by
    have s1 : step .CharacterReferenceStart
        (initT (38 :: 35 :: d0 :: (dtl ++ rest))) =
        ({ bytes := 38 :: 35 :: d0 :: (dtl ++ rest), point := 1,
           events := [⟨.enter, .CharacterReference, 0⟩,
                      ⟨.enter, .CharacterReferenceMarker, 0⟩,
                      ⟨.exit, .CharacterReferenceMarker, 1⟩],
           marker := 0, size := 0,
           constructsAutolink := true,
           constructsCharacterReference := true },
          .Next .CharacterReferenceOpen) := by
      simpa [initT] using step_charRefStart
        (t := initT (38 :: 35 :: d0 :: (dtl ++ rest))) rfl rfl
    have s2 : step .CharacterReferenceOpen
        ({ bytes := 38 :: 35 :: d0 :: (dtl ++ rest), point := 1,
           events := [⟨.enter, .CharacterReference, 0⟩,
                      ⟨.enter, .CharacterReferenceMarker, 0⟩,
                      ⟨.exit, .CharacterReferenceMarker, 1⟩],
           marker := 0, size := 0,
           constructsAutolink := true,
           constructsCharacterReference := true } : Tokenizer) =
        ({ bytes := 38 :: 35 :: d0 :: (dtl ++ rest), point := 2,
           events := [⟨.enter, .CharacterReference, 0⟩,
                      ⟨.enter, .CharacterReferenceMarker, 0⟩,
                      ⟨.exit, .CharacterReferenceMarker, 1⟩,
                      ⟨.enter, .CharacterReferenceMarkerNumeric, 1⟩,
                      ⟨.exit, .CharacterReferenceMarkerNumeric, 2⟩],
           marker := 0, size := 0,
           constructsAutolink := true,
           constructsCharacterReference := true },
          .Next .CharacterReferenceNumeric) := by
      simpa using step_charRefOpen_numeric
        (t := { bytes := 38 :: 35 :: d0 :: (dtl ++ rest), point := 1,
                events := [⟨.enter, .CharacterReference, 0⟩,
                           ⟨.enter, .CharacterReferenceMarker, 0⟩,
                           ⟨.exit, .CharacterReferenceMarker, 1⟩],
                marker := 0, size := 0,
                constructsAutolink := true,
                constructsCharacterReference := true }) rfl
    have s3 : step .CharacterReferenceNumeric
        ({ bytes := 38 :: 35 :: d0 :: (dtl ++ rest), point := 2,
           events := [⟨.enter, .CharacterReference, 0⟩,
                      ⟨.enter, .CharacterReferenceMarker, 0⟩,
                      ⟨.exit, .CharacterReferenceMarker, 1⟩,
                      ⟨.enter, .CharacterReferenceMarkerNumeric, 1⟩,
                      ⟨.exit, .CharacterReferenceMarkerNumeric, 2⟩],
           marker := 0, size := 0,
           constructsAutolink := true,
           constructsCharacterReference := true } : Tokenizer) =
        ({ bytes := 38 :: 35 :: d0 :: (dtl ++ rest), point := 2,
           events := [⟨.enter, .CharacterReference, 0⟩,
                      ⟨.enter, .CharacterReferenceMarker, 0⟩,
                      ⟨.exit, .CharacterReferenceMarker, 1⟩,
                      ⟨.enter, .CharacterReferenceMarkerNumeric, 1⟩,
                      ⟨.exit, .CharacterReferenceMarkerNumeric, 2⟩,
                      ⟨.enter, .CharacterReferenceValue, 2⟩],
           marker := 35, size := 0,
           constructsAutolink := true,
           constructsCharacterReference := true },
          .Retry .CharacterReferenceValue) := by
      simpa using step_charRefNumeric_decimal (b := d0)
        (t := { bytes := 38 :: 35 :: d0 :: (dtl ++ rest), point := 2,
                events := [⟨.enter, .CharacterReference, 0⟩,
                           ⟨.enter, .CharacterReferenceMarker, 0⟩,
                           ⟨.exit, .CharacterReferenceMarker, 1⟩,
                           ⟨.enter, .CharacterReferenceMarkerNumeric, 1⟩,
                           ⟨.exit, .CharacterReferenceMarkerNumeric, 2⟩],
                marker := 0, size := 0,
                constructsAutolink := true,
                constructsCharacterReference := true })
        (by simp [Tokenizer.current]) hd0ne.1 hd0ne.2
    rw [run_succ_next 10 s1, run_succ_next 9 s2, run_succ_retry 8 s3]
    have hdrop2 : (38 :: 35 :: d0 :: (dtl ++ rest)).drop 2 =
        (d0 :: dtl.take 6) ++ (d8 :: rest) := by
      conv_lhs => rw [hsplit]
      simp
    have hloop := charRefValue_scan_decimal (d0 :: dtl.take 6) 1
      ({ bytes := 38 :: 35 :: d0 :: (dtl ++ rest), point := 2,
         events := [⟨.enter, .CharacterReference, 0⟩,
                    ⟨.enter, .CharacterReferenceMarker, 0⟩,
                    ⟨.exit, .CharacterReferenceMarker, 1⟩,
                    ⟨.enter, .CharacterReferenceMarkerNumeric, 1⟩,
                    ⟨.exit, .CharacterReferenceMarkerNumeric, 2⟩,
                    ⟨.enter, .CharacterReferenceValue, 2⟩],
         marker := 35, size := 0,
         constructsAutolink := true,
         constructsCharacterReference := true } : Tokenizer)
      (d8 :: rest)
      (by
        intro b hb
        rcases List.mem_cons.mp hb with h | h
        · exact h ▸ hd0
        · exact hall b (List.mem_cons_of_mem _ (List.take_subset _ _ h)))
      rfl hdrop2
      (by simp [hcs, CHARACTER_REFERENCE_DECIMAL_SIZE_MAX])
    rw [show (8 : Nat) = 1 + (d0 :: dtl.take 6).length from by simp [hcs]]
    rw [hloop]
    simp only [hcs]
    norm_num
    have h9 : (38 :: 35 :: d0 :: (dtl ++ rest)).drop 9 = d8 :: rest := by
      have h2 : ((38 :: 35 :: d0 :: (dtl ++ rest)).drop 2).drop 7 =
          d8 :: rest := by
        have hdl : ((d0 :: dtl.take 6) ++ (d8 :: rest)).drop
            (d0 :: dtl.take 6).length = d8 :: rest := List.drop_left _ _
        rw [hdrop2]
        rw [hcs] at hdl
        exact hdl
      rw [List.drop_drop] at h2
      norm_num at h2
      exact h2
    have s5 := step_charRefValue_decimal_overflow
      (t := { bytes := 38 :: 35 :: d0 :: (dtl ++ rest), point := 9,
              events := [⟨.enter, .CharacterReference, 0⟩,
                         ⟨.enter, .CharacterReferenceMarker, 0⟩,
                         ⟨.exit, .CharacterReferenceMarker, 1⟩,
                         ⟨.enter, .CharacterReferenceMarkerNumeric, 1⟩,
                         ⟨.exit, .CharacterReferenceMarkerNumeric, 2⟩,
                         ⟨.enter, .CharacterReferenceValue, 2⟩],
              marker := 35, size := 7,
              constructsAutolink := true,
              constructsCharacterReference := true })
      (current_of_drop h9) (digit_facts hd8d) rfl
      (by simp [CHARACTER_REFERENCE_DECIMAL_SIZE_MAX])
    rw [run_succ_nok 0 s5]
  exact ⟨_, run_mono (by omega) hrun⟩

/-- Witness for the universal component of the amended C8 theorem at
the concrete eight-digit input `&#12345678;`. -/
theorem decimal_eight_digit_cap_witness :
    ∃ t', run 30 .CharacterReferenceStart
        (initT (38 :: 35 :: (strBytes "12345678" ++ [59]))) =
      some (t', false) :=
  decimal_eight_digit_cap.2.2 (strBytes "12345678") [59] (by decide)
    (by decide)

/-- C9 counterexample: `<a:b>` — a single ASCII letter immediately
followed by `:` — is not accepted: the `:` is only handled after at
least one further scheme byte, so the run falls into the email-atext
path, which rejects `:`. -/
theorem single_letter_scheme_rejected :
    ((run 40 .AutolinkStart (initT (strBytes "<a:b>"))).map Prod.snd =
      some false) ∧
    ¬ ((run 40 .AutolinkStart (initT (strBytes "<a:b>"))).map Prod.snd =
      some true) := by
  decide

/-- C9 (amended): a URL scheme needs at least two characters before the
`:`: for every ASCII letter `c` the input `<c:b>` is `Nok` (after the
letter, the machine is in the ambiguous first-continuation state, which
does not recognize `:` and re-dispatches to email atext, where `:` is
rejected), while the two-character scheme in `<ab:c>` is accepted as a
URL autolink. -/
theorem scheme_needs_two_chars :
    (∀ c : Nat, isAsciiAlpha c = true →
      ∃ t', run 40 .AutolinkStart (initT [60, c, 58, 98, 62]) =
        some (t', false)) ∧
    ((run 40 .AutolinkStart (initT (strBytes "<ab:c>"))).map
        (fun r => (r.2, r.1.events.map Event.token)) =
      some (true, [.Autolink, .AutolinkMarker, .AutolinkMarker,
        .AutolinkProtocol, .AutolinkProtocol, .AutolinkMarker,
        .AutolinkMarker, .Autolink])) := by
  refine ⟨?_, by rfl⟩
  intro c hc
  have s1 : step .AutolinkStart (initT [60, c, 58, 98, 62]) =
      ({ bytes := [60, c, 58, 98, 62], point := 1,
         events := [⟨.enter, .Autolink, 0⟩,
                    ⟨.enter, .AutolinkMarker, 0⟩,
                    ⟨.exit, .AutolinkMarker, 1⟩,
                    ⟨.enter, .AutolinkProtocol, 1⟩],
         marker := 0, size := 0,
         constructsAutolink := true,
         constructsCharacterReference := true },
        .Next .AutolinkOpen) := by
    simpa [initT] using step_start_open (t := initT [60, c, 58, 98, 62])
      (by simp [Tokenizer.current, initT]) rfl
  have s2 : step .AutolinkOpen
      ({ bytes := [60, c, 58, 98, 62], point := 1,
         events := [⟨.enter, .Autolink, 0⟩,
                    ⟨.enter, .AutolinkMarker, 0⟩,
                    ⟨.exit, .AutolinkMarker, 1⟩,
                    ⟨.enter, .AutolinkProtocol, 1⟩],
         marker := 0, size := 0,
         constructsAutolink := true,
         constructsCharacterReference := true } : Tokenizer) =
      ({ bytes := [60, c, 58, 98, 62], point := 2,
         events := [⟨.enter, .Autolink, 0⟩,
                    ⟨.enter, .AutolinkMarker, 0⟩,
                    ⟨.exit, .AutolinkMarker, 1⟩,
                    ⟨.enter, .AutolinkProtocol, 1⟩],
         marker := 0, size := 0,
         constructsAutolink := true,
         constructsCharacterReference := true },
        .Next .AutolinkSchemeOrEmailAtext) := by
    simpa using step_open_letter (b := c)
      (t := { bytes := [60, c, 58, 98, 62], point := 1,
              events := [⟨.enter, .Autolink, 0⟩,
                         ⟨.enter, .AutolinkMarker, 0⟩,
                         ⟨.exit, .AutolinkMarker, 1⟩,
                         ⟨.enter, .AutolinkProtocol, 1⟩],
              marker := 0, size := 0,
              constructsAutolink := true,
              constructsCharacterReference := true })
      (by simp [Tokenizer.current]) hc
  have s3 : step .AutolinkSchemeOrEmailAtext
      ({ bytes := [60, c, 58, 98, 62], point := 2,
         events := [⟨.enter, .Autolink, 0⟩,
                    ⟨.enter, .AutolinkMarker, 0⟩,
                    ⟨.exit, .AutolinkMarker, 1⟩,
                    ⟨.enter, .AutolinkProtocol, 1⟩],
         marker := 0, size := 0,
         constructsAutolink := true,
         constructsCharacterReference := true } : Tokenizer) =
      ({ bytes := [60, c, 58, 98, 62], point := 2,
         events := [⟨.enter, .Autolink, 0⟩,
                    ⟨.enter, .AutolinkMarker, 0⟩,
                    ⟨.exit, .AutolinkMarker, 1⟩,
                    ⟨.enter, .AutolinkProtocol, 1⟩],
         marker := 0, size := 0,
         constructsAutolink := true,
         constructsCharacterReference := true },
        .Retry .AutolinkEmailAtext) :=
    step_schemeOrEmail_other (b := 58) (by simp [Tokenizer.current])
      (by decide)
  have s4 : step .AutolinkEmailAtext
      ({ bytes := [60, c, 58, 98, 62], point := 2,
         events := [⟨.enter, .Autolink, 0⟩,
                    ⟨.enter, .AutolinkMarker, 0⟩,
                    ⟨.exit, .AutolinkMarker, 1⟩,
                    ⟨.enter, .AutolinkProtocol, 1⟩],
         marker := 0, size := 0,
         constructsAutolink := true,
         constructsCharacterReference := true } : Tokenizer) =
      ({ bytes := [60, c, 58, 98, 62], point := 2,
         events := [⟨.enter, .Autolink, 0⟩,
                    ⟨.enter, .AutolinkMarker, 0⟩,
                    ⟨.exit, .AutolinkMarker, 1⟩,
                    ⟨.enter, .AutolinkProtocol, 1⟩],
         marker := 0, size := 0,
         constructsAutolink := true,
         constructsCharacterReference := true }, .Nok) :=
    step_emailAtext_nok (b := 58) (by simp [Tokenizer.current]) (by decide)
      (by decide)
  have hrun : run 4 .AutolinkStart (initT [60, c, 58, 98, 62]) =
      some ({ bytes := [60, c, 58, 98, 62], point := 2,
              events := [⟨.enter, .Autolink, 0⟩,
                         ⟨.enter, .AutolinkMarker, 0⟩,
                         ⟨.exit, .AutolinkMarker, 1⟩,
                         ⟨.enter, .AutolinkProtocol, 1⟩],
              marker := 0, size := 0,
              constructsAutolink := true,
              constructsCharacterReference := true }, false) := by
    rw [run_succ_next 3 s1, run_succ_next 2 s2, run_succ_retry 1 s3,
      run_succ_nok 0 s4]
  exact ⟨_, run_mono (by omega) hrun⟩

/-- Witness for the universal component of the amended C9 theorem at
the concrete letter `a`. -/
theorem scheme_needs_two_chars_witness :
    ∃ t', run 40 .AutolinkStart (initT [60, 97, 58, 98, 62]) =
      some (t', false) :=
  scheme_needs_two_chars.1 97 (by decide)

/-- C10 counterexample: both `<user@a->` (label ending in `-`) and
`<user@-a>` (label starting with `-`) are rejected, contrary to the
claim that the scanning logic accepts them. -/
theorem hyphen_edge_labels_rejected :
    ((run 60 .AutolinkStart (initT (strBytes "<user@a->"))).map
      Prod.snd = some false) ∧
    ((run 60 .AutolinkStart (initT (strBytes "<user@-a>"))).map
      Prod.snd = some false) := by
  decide

/-- C10 (amended): a `-` may appear only strictly inside a label:
directly after `@` or `.` any non-alphanumeric byte (so `-` too) is
`Nok`, and directly after a `-` the scanner is in `email_value`, where
a closing `>` (or a `.`) is `Nok`, so a label can neither begin nor end
with `-`; an interior hyphen as in `<user@a-b>` is accepted, while
`<user@a->` and `<user@-a>` are `Nok`. -/
theorem hyphen_labels_interior_only :
    (∀ (t : Tokenizer) (b : Nat), t.current = some b →
      isAsciiAlphanumeric b = false →
      autolinkEmailAtSignOrDot t = (t, .Nok)) ∧
    (∀ t : Tokenizer, t.current = some 62 →
      autolinkEmailValue t = ({ t with size := 0 }, .Nok)) ∧
    (∀ t : Tokenizer, t.current = some 46 →
      autolinkEmailValue t = ({ t with size := 0 }, .Nok)) ∧
    ((run 60 .AutolinkStart (initT (strBytes "<user@a-b>"))).map
      Prod.snd = some true) ∧
    ((run 60 .AutolinkStart (initT (strBytes "<user@a->"))).map
      Prod.snd = some false) ∧
    ((run 60 .AutolinkStart (initT (strBytes "<user@-a>"))).map
      Prod.snd = some false) := by
  refine ⟨?_, ?_, ?_, by rfl, by rfl, by rfl⟩
  · intro t b hb ha
    simp [autolinkEmailAtSignOrDot, hb, ha]
  · intro t hb
    simp [autolinkEmailValue, hb, isLabelByte, isAsciiAlphanumeric,
      isAsciiDigit, isAsciiAlpha]
  · intro t hb
    simp [autolinkEmailValue, hb, isLabelByte, isAsciiAlphanumeric,
      isAsciiDigit, isAsciiAlpha]

/-- Witness for the hypothesis-bearing components of the amended C10
theorem at concrete states of `<u@-a>` and `<u@a->`. -/
theorem hyphen_labels_interior_only_witness :
    (autolinkEmailAtSignOrDot
        { initT (strBytes "<u@-a>") with point := 3 } =
      ({ initT (strBytes "<u@-a>") with point := 3 }, .Nok)) ∧
    (autolinkEmailValue { initT (strBytes "<u@a->") with point := 5 } =
      ({ initT (strBytes "<u@a->") with point := 5, size := 0 }, .Nok)) :=
  ⟨hyphen_labels_interior_only.1 _ 45 (by decide) (by decide),
    hyphen_labels_interior_only.2.1 _ (by decide)⟩

/-- C5: every email domain label is capped at 63 characters: a label of
64 alphanumeric bytes after the `@` makes the whole autolink `Nok`
whatever follows; a `.` in the label state resets the size counter to
0 (and moves to the label-start state); and a 63-character label is
accepted. -/
theorem email_label_cap :
    (∀ (label rest : List Nat), label.length = 64 →
      (∀ b ∈ label, isAsciiAlphanumeric b = true) →
      ∃ t', run 200 .AutolinkStart
          (initT (60 :: 117 :: 64 :: (label ++ rest))) = some (t', false)) ∧
    (∀ t : Tokenizer, t.current = some 46 →
      autolinkEmailLabel t =
        ({ t with point := t.point + 1, size := 0 },
          .Next .AutolinkEmailAtSignOrDot)) ∧
    ((run 200 .AutolinkStart (initT (60 :: 117 :: 64 ::
        (List.replicate 63 97 ++ [62])))).map Prod.snd = some true) := by
  refine ⟨?_, ?_, by rfl⟩
  case refine_2 =>
    intro t hb
    simp [autolinkEmailLabel, hb, Tokenizer.consume]
  intro label rest hlen hall
  obtain ⟨l0, ltl, rfl⟩ : ∃ l0 ltl, label = l0 :: ltl := by
    cases label with
    | nil => simp at hlen
    | cons a l => exact ⟨a, l, rfl⟩
  have hltl : ltl.length = 63 := by simpa using hlen
  obtain ⟨lz, hlz⟩ : ∃ lz, ltl.drop 62 = [lz] := by
    have h1 : (ltl.drop 62).length = 1 := by simp [hltl]
    cases hds : ltl.drop 62 with
    | nil => rw [hds] at h1; simp at h1
    | cons a l =>
      rw [hds] at h1
      have hl : l = [] := by simpa using h1
      exact ⟨a, by rw [hl]⟩
  have htake : (ltl.take 62).length = 62 := by simp [hltl]
  have hsplit : ltl = ltl.take 62 ++ [lz] := by
    conv_lhs => rw [← List.take_append_drop 62 ltl]
    rw [hlz]
  have hl0 : isAsciiAlphanumeric l0 = true := hall l0 (by simp)
  have hlzd : isAsciiAlphanumeric lz = true := by
    refine hall lz ?_
    have hmem : lz ∈ ltl.drop 62 := by rw [hlz]; simp
    exact List.mem_cons_of_mem _ (List.drop_subset _ _ hmem)
  have hrun : run 132 .AutolinkStart
      (initT (60 :: 117 :: 64 :: l0 :: (ltl ++ rest))) =
      some ({ bytes := 60 :: 117 :: 64 :: l0 :: (ltl ++ rest), point := 66,
              events := [⟨.enter, .Autolink, 0⟩,
                         ⟨.enter, .AutolinkMarker, 0⟩,
                         ⟨.exit, .AutolinkMarker, 1⟩,
                         ⟨.enter, .AutolinkProtocol, 1⟩],
              marker := 0, size := 0,
              constructsAutolink := true,
              constructsCharacterReference := true }, false) := by
    have s1 : step .AutolinkStart
        (initT (60 :: 117 :: 64 :: l0 :: (ltl ++ rest))) =
        ({ bytes := 60 :: 117 :: 64 :: l0 :: (ltl ++ rest), point := 1,
           events := [⟨.enter, .Autolink, 0⟩,
                      ⟨.enter, .AutolinkMarker, 0⟩,
                      ⟨.exit, .AutolinkMarker, 1⟩,
                      ⟨.enter, .AutolinkProtocol, 1⟩],
           marker := 0, size := 0,
           constructsAutolink := true,
           constructsCharacterReference := true },
          .Next .AutolinkOpen) := by
      simpa [initT] using step_start_open
        (t := initT (60 :: 117 :: 64 :: l0 :: (ltl ++ rest)))
        (by simp [Tokenizer.current, initT]) rfl
    have s2 : step .AutolinkOpen
        ({ bytes := 60 :: 117 :: 64 :: l0 :: (ltl ++ rest), point := 1,
           events := [⟨.enter, .Autolink, 0⟩,
                      ⟨.enter, .AutolinkMarker, 0⟩,
                      ⟨.exit, .AutolinkMarker, 1⟩,
                      ⟨.enter, .AutolinkProtocol, 1⟩],
           marker := 0, size := 0,
           constructsAutolink := true,
           constructsCharacterReference := true } : Tokenizer) =
        ({ bytes := 60 :: 117 :: 64 :: l0 :: (ltl ++ rest), point := 2,
           events := [⟨.enter, .Autolink, 0⟩,
                      ⟨.enter, .AutolinkMarker, 0⟩,
                      ⟨.exit, .AutolinkMarker, 1⟩,
                      ⟨.enter, .AutolinkProtocol, 1⟩],
           marker := 0, size := 0,
           constructsAutolink := true,
           constructsCharacterReference := true },
          .Next .AutolinkSchemeOrEmailAtext) := by
      simpa using step_open_letter (b := 117)
        (t := { bytes := 60 :: 117 :: 64 :: l0 :: (ltl ++ rest), point := 1,
                events := [⟨.enter, .Autolink, 0⟩,
                           ⟨.enter, .AutolinkMarker, 0⟩,
                           ⟨.exit, .AutolinkMarker, 1⟩,
                           ⟨.enter, .AutolinkProtocol, 1⟩],
                marker := 0, size := 0,
                constructsAutolink := true,
                constructsCharacterReference := true })
        (by simp [Tokenizer.current]) (by decide)
    have s3 : step .AutolinkSchemeOrEmailAtext
        ({ bytes := 60 :: 117 :: 64 :: l0 :: (ltl ++ rest), point := 2,
           events := [⟨.enter, .Autolink, 0⟩,
                      ⟨.enter, .AutolinkMarker, 0⟩,
                      ⟨.exit, .AutolinkMarker, 1⟩,
                      ⟨.enter, .AutolinkProtocol, 1⟩],
           marker := 0, size := 0,
           constructsAutolink := true,
           constructsCharacterReference := true } : Tokenizer) =
        ({ bytes := 60 :: 117 :: 64 :: l0 :: (ltl ++ rest), point := 2,
           events := [⟨.enter, .Autolink, 0⟩,
                      ⟨.enter, .AutolinkMarker, 0⟩,
                      ⟨.exit, .AutolinkMarker, 1⟩,
                      ⟨.enter, .AutolinkProtocol, 1⟩],
           marker := 0, size := 0,
           constructsAutolink := true,
           constructsCharacterReference := true },
          .Retry .AutolinkEmailAtext) :=
      step_schemeOrEmail_other (b := 64) (by simp [Tokenizer.current])
        (by decide)
    have s4 : step .AutolinkEmailAtext
        ({ bytes := 60 :: 117 :: 64 :: l0 :: (ltl ++ rest), point := 2,
           events := [⟨.enter, .Autolink, 0⟩,
                      ⟨.enter, .AutolinkMarker, 0⟩,
                      ⟨.exit, .AutolinkMarker, 1⟩,
                      ⟨.enter, .AutolinkProtocol, 1⟩],
           marker := 0, size := 0,
           constructsAutolink := true,
           constructsCharacterReference := true } : Tokenizer) =
        ({ bytes := 60 :: 117 :: 64 :: l0 :: (ltl ++ rest), point := 3,
           events := [⟨.enter, .Autolink, 0⟩,
                      ⟨.enter, .AutolinkMarker, 0⟩,
                      ⟨.exit, .AutolinkMarker, 1⟩,
                      ⟨.enter, .AutolinkProtocol, 1⟩],
           marker := 0, size := 0,
           constructsAutolink := true,
           constructsCharacterReference := true },
          .Next .AutolinkEmailAtSignOrDot) := by
      simpa using step_emailAtext_at
        (t := { bytes := 60 :: 117 :: 64 :: l0 :: (ltl ++ rest), point := 2,
                events := [⟨.enter, .Autolink, 0⟩,
                           ⟨.enter, .AutolinkMarker, 0⟩,
                           ⟨.exit, .AutolinkMarker, 1⟩,
                           ⟨.enter, .AutolinkProtocol, 1⟩],
                marker := 0, size := 0,
                constructsAutolink := true,
                constructsCharacterReference := true })
        (by simp [Tokenizer.current])
    have s5 : step .AutolinkEmailAtSignOrDot
        ({ bytes := 60 :: 117 :: 64 :: l0 :: (ltl ++ rest), point := 3,
           events := [⟨.enter, .Autolink, 0⟩,
                      ⟨.enter, .AutolinkMarker, 0⟩,
                      ⟨.exit, .AutolinkMarker, 1⟩,
                      ⟨.enter, .AutolinkProtocol, 1⟩],
           marker := 0, size := 0,
           constructsAutolink := true,
           constructsCharacterReference := true } : Tokenizer) =
        ({ bytes := 60 :: 117 :: 64 :: l0 :: (ltl ++ rest), point := 3,
           events := [⟨.enter, .Autolink, 0⟩,
                      ⟨.enter, .AutolinkMarker, 0⟩,
                      ⟨.exit, .AutolinkMarker, 1⟩,
                      ⟨.enter, .AutolinkProtocol, 1⟩],
           marker := 0, size := 0,
           constructsAutolink := true,
           constructsCharacterReference := true },
          .Retry .AutolinkEmailValue) :=
      step_atSignOrDot_alnum (b := l0) (by simp [Tokenizer.current]) hl0
    have s6 : step .AutolinkEmailValue
        ({ bytes := 60 :: 117 :: 64 :: l0 :: (ltl ++ rest), point := 3,
           events := [⟨.enter, .Autolink, 0⟩,
                      ⟨.enter, .AutolinkMarker, 0⟩,
                      ⟨.exit, .AutolinkMarker, 1⟩,
                      ⟨.enter, .AutolinkProtocol, 1⟩],
           marker := 0, size := 0,
           constructsAutolink := true,
           constructsCharacterReference := true } : Tokenizer) =
        ({ bytes := 60 :: 117 :: 64 :: l0 :: (ltl ++ rest), point := 4,
           events := [⟨.enter, .Autolink, 0⟩,
                      ⟨.enter, .AutolinkMarker, 0⟩,
                      ⟨.exit, .AutolinkMarker, 1⟩,
                      ⟨.enter, .AutolinkProtocol, 1⟩],
           marker := 0, size := 1,
           constructsAutolink := true,
           constructsCharacterReference := true },
          .Next .AutolinkEmailLabel) := by
      simpa using step_emailValue_accept (b := l0)
        (t := { bytes := 60 :: 117 :: 64 :: l0 :: (ltl ++ rest), point := 3,
                events := [⟨.enter, .Autolink, 0⟩,
                           ⟨.enter, .AutolinkMarker, 0⟩,
                           ⟨.exit, .AutolinkMarker, 1⟩,
                           ⟨.enter, .AutolinkProtocol, 1⟩],
                marker := 0, size := 0,
                constructsAutolink := true,
                constructsCharacterReference := true })
        (by simp [Tokenizer.current]) hl0
        (by norm_num [AUTOLINK_DOMAIN_SIZE_MAX])
    rw [run_succ_next 131 s1, run_succ_next 130 s2, run_succ_retry 129 s3,
      run_succ_next 128 s4, run_succ_retry 127 s5, run_succ_next 126 s6]
    have hdrop4 : (60 :: 117 :: 64 :: l0 :: (ltl ++ rest)).drop 4 =
        (ltl.take 62) ++ (lz :: rest) := by
      conv_lhs => rw [hsplit]
      simp
    have hloop := emailLabel_scan (ltl.take 62) 2
      ({ bytes := 60 :: 117 :: 64 :: l0 :: (ltl ++ rest), point := 4,
         events := [⟨.enter, .Autolink, 0⟩,
                    ⟨.enter, .AutolinkMarker, 0⟩,
                    ⟨.exit, .AutolinkMarker, 1⟩,
                    ⟨.enter, .AutolinkProtocol, 1⟩],
         marker := 0, size := 1,
         constructsAutolink := true,
         constructsCharacterReference := true } : Tokenizer)
      (lz :: rest)
      (fun b hb => hall b (List.mem_cons_of_mem _ (List.take_subset _ _ hb)))
      hdrop4
      (by simp [htake, AUTOLINK_DOMAIN_SIZE_MAX])
    rw [show (126 : Nat) = 2 + 2 * (ltl.take 62).length from by
      simp [htake]]
    rw [hloop]
    simp only [htake]
    norm_num
    have h66 : (60 :: 117 :: 64 :: l0 :: (ltl ++ rest)).drop 66 =
        lz :: rest := by
      have h2 : ((60 :: 117 :: 64 :: l0 :: (ltl ++ rest)).drop 4).drop 62 =
          lz :: rest := by
        have hdl : ((ltl.take 62) ++ (lz :: rest)).drop
            (ltl.take 62).length = lz :: rest := List.drop_left _ _
        rw [hdrop4]
        rw [htake] at hdl
        exact hdl
      rw [List.drop_drop] at h2
      norm_num at h2
      exact h2
    obtain ⟨hlz45, hlz46, hlz62, -⟩ := alnum_facts hlzd
    have s7 : step .AutolinkEmailLabel
        ({ bytes := 60 :: 117 :: 64 :: l0 :: (ltl ++ rest), point := 66,
           events := [⟨.enter, .Autolink, 0⟩,
                      ⟨.enter, .AutolinkMarker, 0⟩,
                      ⟨.exit, .AutolinkMarker, 1⟩,
                      ⟨.enter, .AutolinkProtocol, 1⟩],
           marker := 0, size := 63,
           constructsAutolink := true,
           constructsCharacterReference := true } : Tokenizer) =
        ({ bytes := 60 :: 117 :: 64 :: l0 :: (ltl ++ rest), point := 66,
           events := [⟨.enter, .Autolink, 0⟩,
                      ⟨.enter, .AutolinkMarker, 0⟩,
                      ⟨.exit, .AutolinkMarker, 1⟩,
                      ⟨.enter, .AutolinkProtocol, 1⟩],
           marker := 0, size := 63,
           constructsAutolink := true,
           constructsCharacterReference := true },
          .Retry .AutolinkEmailValue) :=
      step_emailLabel_other (b := lz) (current_of_drop h66) hlz46 hlz62
    have s8 : step .AutolinkEmailValue
        ({ bytes := 60 :: 117 :: 64 :: l0 :: (ltl ++ rest), point := 66,
           events := [⟨.enter, .Autolink, 0⟩,
                      ⟨.enter, .AutolinkMarker, 0⟩,
                      ⟨.exit, .AutolinkMarker, 1⟩,
                      ⟨.enter, .AutolinkProtocol, 1⟩],
           marker := 0, size := 63,
           constructsAutolink := true,
           constructsCharacterReference := true } : Tokenizer) =
        ({ bytes := 60 :: 117 :: 64 :: l0 :: (ltl ++ rest), point := 66,
           events := [⟨.enter, .Autolink, 0⟩,
                      ⟨.enter, .AutolinkMarker, 0⟩,
                      ⟨.exit, .AutolinkMarker, 1⟩,
                      ⟨.enter, .AutolinkProtocol, 1⟩],
           marker := 0, size := 0,
           constructsAutolink := true,
           constructsCharacterReference := true }, .Nok) := by
      simpa using step_emailValue_nok (b := lz)
        (t := { bytes := 60 :: 117 :: 64 :: l0 :: (ltl ++ rest),
                point := 66,
                events := [⟨.enter, .Autolink, 0⟩,
                           ⟨.enter, .AutolinkMarker, 0⟩,
                           ⟨.exit, .AutolinkMarker, 1⟩,
                           ⟨.enter, .AutolinkProtocol, 1⟩],
                marker := 0, size := 63,
                constructsAutolink := true,
                constructsCharacterReference := true })
        (current_of_drop h66)
        (Or.inr (by norm_num [AUTOLINK_DOMAIN_SIZE_MAX]))
    rw [run_succ_retry 1 s7, run_succ_nok 0 s8]
  exact ⟨_, run_mono (by omega) hrun⟩

/-- Witness for the hypothesis-bearing components of C5: a concrete
64-character label is rejected, and the concrete `.` state resets the
counter. -/
theorem email_label_cap_witness :
    (∃ t', run 200 .AutolinkStart
        (initT (60 :: 117 :: 64 :: (List.replicate 64 97 ++ [62]))) =
      some (t', false)) ∧
    (autolinkEmailLabel
        { initT (strBytes "<u@a.b>") with point := 4, size := 1 } =
      ({ initT (strBytes "<u@a.b>") with point := 5, size := 0 },
        .Next .AutolinkEmailAtSignOrDot)) :=
  ⟨email_label_cap.1 (List.replicate 64 97) [62] (by decide) (by decide),
    email_label_cap.2.1 _ (by decide)⟩

/-- C3 counterexample: a scheme of exactly 32 allowed characters
followed by `:` and a valid body is not accepted: the first letter is
already counted into `size`, so the thirty-second character overflows
the cap of 31 and the run falls into the email path, which then
rejects the `:`. -/
theorem scheme_32_chars_rejected :
    ((run 300 .AutolinkStart
        (initT (60 :: (List.replicate 32 97 ++ [58, 98, 62])))).map
      Prod.snd = some false) ∧
    ¬ ((run 300 .AutolinkStart
        (initT (60 :: (List.replicate 32 97 ++ [58, 98, 62])))).map
      Prod.snd = some true) := by
  decide

/-- C3 (amended): the scheme cap counts the first letter, so a scheme
of exactly 31 characters (the opening letter plus 30 more) followed by
`:` and a valid body is accepted as a URL autolink, while a scheme of
32 characters fails the URL path and falls through — zero-width — to
the email-atext path with the scratch counter reset; concretely,
32 letters followed by `@b>` still succeed as an email autolink, and
32 letters followed by `:b>` are `Nok`. -/
theorem scheme_cap_counts_first_letter :
    (∀ (c : Nat) (cs body : List Nat), isAsciiAlpha c = true →
      cs.length = 30 → (∀ b ∈ cs, isSchemeByte b = true) →
      (∀ b ∈ body, isUrlForbidden b = false ∧ b ≠ 62) →
      run (body.length + 40) .AutolinkStart
          (initT (60 :: c :: (cs ++ 58 :: (body ++ [62])))) =
        some ({ bytes := 60 :: c :: (cs ++ 58 :: (body ++ [62])),
                point := 33 + body.length + 1,
                events := [⟨.enter, .Autolink, 0⟩,
                           ⟨.enter, .AutolinkMarker, 0⟩,
                           ⟨.exit, .AutolinkMarker, 1⟩,
                           ⟨.enter, .AutolinkProtocol, 1⟩,
                           ⟨.exit, .AutolinkProtocol, 33 + body.length⟩,
                           ⟨.enter, .AutolinkMarker, 33 + body.length⟩,
                           ⟨.exit, .AutolinkMarker, 33 + body.length + 1⟩,
                           ⟨.exit, .Autolink, 33 + body.length + 1⟩],
                marker := 0, size := 0,
                constructsAutolink := true,
                constructsCharacterReference := true }, true)) ∧
    (∀ (c : Nat) (cs rest : List Nat), isAsciiAlpha c = true →
      cs.length = 31 → (∀ b ∈ cs, isSchemeByte b = true) →
      ∀ fuel : Nat,
      run (fuel + 34) .AutolinkStart (initT (60 :: c :: (cs ++ rest))) =
        run fuel .AutolinkEmailAtext
          { bytes := 60 :: c :: (cs ++ rest), point := 32,
            events := [⟨.enter, .Autolink, 0⟩,
                       ⟨.enter, .AutolinkMarker, 0⟩,
                       ⟨.exit, .AutolinkMarker, 1⟩,
                       ⟨.enter, .AutolinkProtocol, 1⟩],
            marker := 0, size := 0,
            constructsAutolink := true,
            constructsCharacterReference := true }) ∧
    ((run 300 .AutolinkStart
        (initT (60 :: (List.replicate 32 97 ++ [64, 98, 62])))).map
      Prod.snd = some true) ∧
    ((run 300 .AutolinkStart
        (initT (60 :: (List.replicate 32 97 ++ [58, 98, 62])))).map
      Prod.snd = some false) := by
  refine ⟨?_, ?_, by decide, by decide⟩
  · -- 31-character scheme accepted as URL
    intro c cs body hc hlen hscheme hbody
    obtain ⟨k0, ktl, rfl⟩ : ∃ k0 ktl, cs = k0 :: ktl := by
      cases cs with
      | nil => simp at hlen
      | cons a l => exact ⟨a, l, rfl⟩
    have hktl : ktl.length = 29 := by simpa using hlen
    have s1 : step .AutolinkStart
        (initT (60 :: c :: k0 :: (ktl ++ 58 :: (body ++ [62])))) =
        ({ bytes := 60 :: c :: k0 :: (ktl ++ 58 :: (body ++ [62])),
           point := 1,
           events := [⟨.enter, .Autolink, 0⟩,
                      ⟨.enter, .AutolinkMarker, 0⟩,
                      ⟨.exit, .AutolinkMarker, 1⟩,
                      ⟨.enter, .AutolinkProtocol, 1⟩],
           marker := 0, size := 0,
           constructsAutolink := true,
           constructsCharacterReference := true },
          .Next .AutolinkOpen) := by
      simpa [initT] using step_start_open
        (t := initT (60 :: c :: k0 :: (ktl ++ 58 :: (body ++ [62]))))
        (by simp [Tokenizer.current, initT]) rfl
    have s2 : step .AutolinkOpen
        ({ bytes := 60 :: c :: k0 :: (ktl ++ 58 :: (body ++ [62])),
           point := 1,
           events := [⟨.enter, .Autolink, 0⟩,
                      ⟨.enter, .AutolinkMarker, 0⟩,
                      ⟨.exit, .AutolinkMarker, 1⟩,
                      ⟨.enter, .AutolinkProtocol, 1⟩],
           marker := 0, size := 0,
           constructsAutolink := true,
           constructsCharacterReference := true } : Tokenizer) =
        ({ bytes := 60 :: c :: k0 :: (ktl ++ 58 :: (body ++ [62])),
           point := 2,
           events := [⟨.enter, .Autolink, 0⟩,
                      ⟨.enter, .AutolinkMarker, 0⟩,
                      ⟨.exit, .AutolinkMarker, 1⟩,
                      ⟨.enter, .AutolinkProtocol, 1⟩],
           marker := 0, size := 0,
           constructsAutolink := true,
           constructsCharacterReference := true },
          .Next .AutolinkSchemeOrEmailAtext) := by
      simpa using step_open_letter (b := c)
        (t := { bytes := 60 :: c :: k0 :: (ktl ++ 58 :: (body ++ [62])),
                point := 1,
                events := [⟨.enter, .Autolink, 0⟩,
                           ⟨.enter, .AutolinkMarker, 0⟩,
                           ⟨.exit, .AutolinkMarker, 1⟩,
                           ⟨.enter, .AutolinkProtocol, 1⟩],
                marker := 0, size := 0,
                constructsAutolink := true,
                constructsCharacterReference := true })
        (by simp [Tokenizer.current]) hc
    have s3 : step .AutolinkSchemeOrEmailAtext
        ({ bytes := 60 :: c :: k0 :: (ktl ++ 58 :: (body ++ [62])),
           point := 2,
           events := [⟨.enter, .Autolink, 0⟩,
                      ⟨.enter, .AutolinkMarker, 0⟩,
                      ⟨.exit, .AutolinkMarker, 1⟩,
                      ⟨.enter, .AutolinkProtocol, 1⟩],
           marker := 0, size := 0,
           constructsAutolink := true,
           constructsCharacterReference := true } : Tokenizer) =
        ({ bytes := 60 :: c :: k0 :: (ktl ++ 58 :: (body ++ [62])),
           point := 2,
           events := [⟨.enter, .Autolink, 0⟩,
                      ⟨.enter, .AutolinkMarker, 0⟩,
                      ⟨.exit, .AutolinkMarker, 1⟩,
                      ⟨.enter, .AutolinkProtocol, 1⟩],
           marker := 0, size := 1,
           constructsAutolink := true,
           constructsCharacterReference := true },
          .Retry .AutolinkSchemeInsideOrEmailAtext) := by
      simpa using step_schemeOrEmail_scheme (b := k0)
        (t := { bytes := 60 :: c :: k0 :: (ktl ++ 58 :: (body ++ [62])),
                point := 2,
                events := [⟨.enter, .Autolink, 0⟩,
                           ⟨.enter, .AutolinkMarker, 0⟩,
                           ⟨.exit, .AutolinkMarker, 1⟩,
                           ⟨.enter, .AutolinkProtocol, 1⟩],
                marker := 0, size := 0,
                constructsAutolink := true,
                constructsCharacterReference := true })
        (by simp [Tokenizer.current]) (hscheme k0 (by simp))
    have hdrop2 : (60 :: c :: k0 :: (ktl ++ 58 :: (body ++ [62]))).drop 2 =
        (k0 :: ktl) ++ (58 :: (body ++ [62])) := by simp
    have eLoop := schemeInside_scan (k0 :: ktl) (body.length + 2)
      ({ bytes := 60 :: c :: k0 :: (ktl ++ 58 :: (body ++ [62])),
         point := 2,
         events := [⟨.enter, .Autolink, 0⟩,
                    ⟨.enter, .AutolinkMarker, 0⟩,
                    ⟨.exit, .AutolinkMarker, 1⟩,
                    ⟨.enter, .AutolinkProtocol, 1⟩],
         marker := 0, size := 1,
         constructsAutolink := true,
         constructsCharacterReference := true } : Tokenizer)
      (58 :: (body ++ [62])) hscheme hdrop2
      (by simp [hlen, AUTOLINK_SCHEME_SIZE_MAX])
    rw [hlen] at eLoop
    norm_num at eLoop
    have h32 : (60 :: c :: k0 :: (ktl ++ 58 :: (body ++ [62]))).drop 32 =
        58 :: (body ++ [62]) := by
      have h2 : ((60 :: c :: k0 ::
          (ktl ++ 58 :: (body ++ [62]))).drop 2).drop 30 =
          58 :: (body ++ [62]) := by
        have hdl : ((k0 :: ktl) ++ (58 :: (body ++ [62]))).drop
            (k0 :: ktl).length = 58 :: (body ++ [62]) := List.drop_left _ _
        rw [hdrop2]
        rw [show (k0 :: ktl).length = 30 from by simp [hktl]] at hdl
        exact hdl
      rw [List.drop_drop] at h2
      norm_num at h2
      exact h2
    have s5 : step .AutolinkSchemeInsideOrEmailAtext
        ({ bytes := 60 :: c :: k0 :: (ktl ++ 58 :: (body ++ [62])),
           point := 32,
           events := [⟨.enter, .Autolink, 0⟩,
                      ⟨.enter, .AutolinkMarker, 0⟩,
                      ⟨.exit, .AutolinkMarker, 1⟩,
                      ⟨.enter, .AutolinkProtocol, 1⟩],
           marker := 0, size := 31,
           constructsAutolink := true,
           constructsCharacterReference := true } : Tokenizer) =
        ({ bytes := 60 :: c :: k0 :: (ktl ++ 58 :: (body ++ [62])),
           point := 33,
           events := [⟨.enter, .Autolink, 0⟩,
                      ⟨.enter, .AutolinkMarker, 0⟩,
                      ⟨.exit, .AutolinkMarker, 1⟩,
                      ⟨.enter, .AutolinkProtocol, 1⟩],
           marker := 0, size := 0,
           constructsAutolink := true,
           constructsCharacterReference := true },
          .Next .AutolinkUrlInside) := by
      simpa using step_schemeInside_colon
        (t := { bytes := 60 :: c :: k0 :: (ktl ++ 58 :: (body ++ [62])),
                point := 32,
                events := [⟨.enter, .Autolink, 0⟩,
                           ⟨.enter, .AutolinkMarker, 0⟩,
                           ⟨.exit, .AutolinkMarker, 1⟩,
                           ⟨.enter, .AutolinkProtocol, 1⟩],
                marker := 0, size := 31,
                constructsAutolink := true,
                constructsCharacterReference := true })
        (current_of_drop h32)
    have h33 : (60 :: c :: k0 :: (ktl ++ 58 :: (body ++ [62]))).drop 33 =
        body ++ [62] := drop_succ_of_drop h32
    have eLoop2 := urlInside_scan body 1
      ({ bytes := 60 :: c :: k0 :: (ktl ++ 58 :: (body ++ [62])),
         point := 33,
         events := [⟨.enter, .Autolink, 0⟩,
                    ⟨.enter, .AutolinkMarker, 0⟩,
                    ⟨.exit, .AutolinkMarker, 1⟩,
                    ⟨.enter, .AutolinkProtocol, 1⟩],
         marker := 0, size := 0,
         constructsAutolink := true,
         constructsCharacterReference := true } : Tokenizer)
      [62] hbody h33
    have h33n : (60 :: c :: k0 ::
        (ktl ++ 58 :: (body ++ [62]))).drop (33 + body.length) =
        62 :: [] := by
      have h2 : ((60 :: c :: k0 ::
          (ktl ++ 58 :: (body ++ [62]))).drop 33).drop body.length =
          62 :: [] := by
        rw [h33]
        exact List.drop_left body [62]
      rw [List.drop_drop] at h2
      exact h2
    have s7 : step .AutolinkUrlInside
        ({ bytes := 60 :: c :: k0 :: (ktl ++ 58 :: (body ++ [62])),
           point := 33 + body.length,
           events := [⟨.enter, .Autolink, 0⟩,
                      ⟨.enter, .AutolinkMarker, 0⟩,
                      ⟨.exit, .AutolinkMarker, 1⟩,
                      ⟨.enter, .AutolinkProtocol, 1⟩],
           marker := 0, size := 0,
           constructsAutolink := true,
           constructsCharacterReference := true } : Tokenizer) =
        ({ bytes := 60 :: c :: k0 :: (ktl ++ 58 :: (body ++ [62])),
           point := 33 + body.length + 1,
           events := [⟨.enter, .Autolink, 0⟩,
                      ⟨.enter, .AutolinkMarker, 0⟩,
                      ⟨.exit, .AutolinkMarker, 1⟩,
                      ⟨.enter, .AutolinkProtocol, 1⟩,
                      ⟨.exit, .AutolinkProtocol, 33 + body.length⟩,
                      ⟨.enter, .AutolinkMarker, 33 + body.length⟩,
                      ⟨.exit, .AutolinkMarker, 33 + body.length + 1⟩,
                      ⟨.exit, .Autolink, 33 + body.length + 1⟩],
           marker := 0, size := 0,
           constructsAutolink := true,
           constructsCharacterReference := true }, .Ok) := by
      simpa using step_urlInside_close
        (t := { bytes := 60 :: c :: k0 :: (ktl ++ 58 :: (body ++ [62])),
                point := 33 + body.length,
                events := [⟨.enter, .Autolink, 0⟩,
                           ⟨.enter, .AutolinkMarker, 0⟩,
                           ⟨.exit, .AutolinkMarker, 1⟩,
                           ⟨.enter, .AutolinkProtocol, 1⟩],
                marker := 0, size := 0,
                constructsAutolink := true,
                constructsCharacterReference := true })
        (current_of_drop h33n)
    have hrun : run (body.length + 35) .AutolinkStart
        (initT (60 :: c :: k0 :: (ktl ++ 58 :: (body ++ [62])))) =
        some ({ bytes := 60 :: c :: k0 :: (ktl ++ 58 :: (body ++ [62])),
                point := 33 + body.length + 1,
                events := [⟨.enter, .Autolink, 0⟩,
                           ⟨.enter, .AutolinkMarker, 0⟩,
                           ⟨.exit, .AutolinkMarker, 1⟩,
                           ⟨.enter, .AutolinkProtocol, 1⟩,
                           ⟨.exit, .AutolinkProtocol, 33 + body.length⟩,
                           ⟨.enter, .AutolinkMarker, 33 + body.length⟩,
                           ⟨.exit, .AutolinkMarker, 33 + body.length + 1⟩,
                           ⟨.exit, .Autolink, 33 + body.length + 1⟩],
                marker := 0, size := 0,
                constructsAutolink := true,
                constructsCharacterReference := true }, true) :=
      (run_succ_next (body.length + 34) s1).trans
        ((run_succ_next (body.length + 33) s2).trans
          ((run_succ_retry (body.length + 32) s3).trans
            (eLoop.trans
              ((run_succ_next (body.length + 1) s5).trans
                ((by rw [Nat.add_comm] :
                    run (body.length + 1) .AutolinkUrlInside
                      ({ bytes := 60 :: c :: k0 ::
                           (ktl ++ 58 :: (body ++ [62])),
                         point := 33,
                         events := [⟨.enter, .Autolink, 0⟩,
                                    ⟨.enter, .AutolinkMarker, 0⟩,
                                    ⟨.exit, .AutolinkMarker, 1⟩,
                                    ⟨.enter, .AutolinkProtocol, 1⟩],
                         marker := 0, size := 0,
                         constructsAutolink := true,
                         constructsCharacterReference := true } :
                        Tokenizer) =
                    run (1 + body.length) .AutolinkUrlInside
                      { bytes := 60 :: c :: k0 ::
                          (ktl ++ 58 :: (body ++ [62])),
                        point := 33,
                        events := [⟨.enter, .Autolink, 0⟩,
                                   ⟨.enter, .AutolinkMarker, 0⟩,
                                   ⟨.exit, .AutolinkMarker, 1⟩,
                                   ⟨.enter, .AutolinkProtocol, 1⟩],
                        marker := 0, size := 0,
                        constructsAutolink := true,
                        constructsCharacterReference := true }).trans
                  (eLoop2.trans (run_succ_ok 0 s7)))))))
    exact run_mono (by omega) hrun
  · -- 32-character scheme falls through to the email path
    intro c cs rest hc hlen hscheme fuel
    obtain ⟨k0, ktl, rfl⟩ : ∃ k0 ktl, cs = k0 :: ktl := by
      cases cs with
      | nil => simp at hlen
      | cons a l => exact ⟨a, l, rfl⟩
    have hktl : ktl.length = 30 := by simpa using hlen
    obtain ⟨kz, hkz⟩ : ∃ kz, ktl.drop 29 = [kz] := by
      have h1 : (ktl.drop 29).length = 1 := by simp [hktl]
      cases hds : ktl.drop 29 with
      | nil => rw [hds] at h1; simp at h1
      | cons a l =>
        rw [hds] at h1
        have hl : l = [] := by simpa using h1
        exact ⟨a, by rw [hl]⟩
    have htake : (ktl.take 29).length = 29 := by simp [hktl]
    have hsplit : ktl = ktl.take 29 ++ [kz] := by
      conv_lhs => rw [← List.take_append_drop 29 ktl]
      rw [hkz]
    have hkzs : isSchemeByte kz = true := by
      refine hscheme kz (List.mem_cons_of_mem _ ?_)
      have hmem : kz ∈ ktl.drop 29 := by rw [hkz]; simp
      exact List.drop_subset _ _ hmem
    have s1 : step .AutolinkStart
        (initT (60 :: c :: k0 :: (ktl ++ rest))) =
        ({ bytes := 60 :: c :: k0 :: (ktl ++ rest), point := 1,
           events := [⟨.enter, .Autolink, 0⟩,
                      ⟨.enter, .AutolinkMarker, 0⟩,
                      ⟨.exit, .AutolinkMarker, 1⟩,
                      ⟨.enter, .AutolinkProtocol, 1⟩],
           marker := 0, size := 0,
           constructsAutolink := true,
           constructsCharacterReference := true },
          .Next .AutolinkOpen) := by
      simpa [initT] using step_start_open
        (t := initT (60 :: c :: k0 :: (ktl ++ rest)))
        (by simp [Tokenizer.current, initT]) rfl
    have s2 : step .AutolinkOpen
        ({ bytes := 60 :: c :: k0 :: (ktl ++ rest), point := 1,
           events := [⟨.enter, .Autolink, 0⟩,
                      ⟨.enter, .AutolinkMarker, 0⟩,
                      ⟨.exit, .AutolinkMarker, 1⟩,
                      ⟨.enter, .AutolinkProtocol, 1⟩],
           marker := 0, size := 0,
           constructsAutolink := true,
           constructsCharacterReference := true } : Tokenizer) =
        ({ bytes := 60 :: c :: k0 :: (ktl ++ rest), point := 2,
           events := [⟨.enter, .Autolink, 0⟩,
                      ⟨.enter, .AutolinkMarker, 0⟩,
                      ⟨.exit, .AutolinkMarker, 1⟩,
                      ⟨.enter, .AutolinkProtocol, 1⟩],
           marker := 0, size := 0,
           constructsAutolink := true,
           constructsCharacterReference := true },
          .Next .AutolinkSchemeOrEmailAtext) := by
      simpa using step_open_letter (b := c)
        (t := { bytes := 60 :: c :: k0 :: (ktl ++ rest), point := 1,
                events := [⟨.enter, .Autolink, 0⟩,
                           ⟨.enter, .AutolinkMarker, 0⟩,
                           ⟨.exit, .AutolinkMarker, 1⟩,
                           ⟨.enter, .AutolinkProtocol, 1⟩],
                marker := 0, size := 0,
                constructsAutolink := true,
                constructsCharacterReference := true })
        (by simp [Tokenizer.current]) hc
    have s3 : step .AutolinkSchemeOrEmailAtext
        ({ bytes := 60 :: c :: k0 :: (ktl ++ rest), point := 2,
           events := [⟨.enter, .Autolink, 0⟩,
                      ⟨.enter, .AutolinkMarker, 0⟩,
                      ⟨.exit, .AutolinkMarker, 1⟩,
                      ⟨.enter, .AutolinkProtocol, 1⟩],
           marker := 0, size := 0,
           constructsAutolink := true,
           constructsCharacterReference := true } : Tokenizer) =
        ({ bytes := 60 :: c :: k0 :: (ktl ++ rest), point := 2,
           events := [⟨.enter, .Autolink, 0⟩,
                      ⟨.enter, .AutolinkMarker, 0⟩,
                      ⟨.exit, .AutolinkMarker, 1⟩,
                      ⟨.enter, .AutolinkProtocol, 1⟩],
           marker := 0, size := 1,
           constructsAutolink := true,
           constructsCharacterReference := true },
          .Retry .AutolinkSchemeInsideOrEmailAtext) := by
      simpa using step_schemeOrEmail_scheme (b := k0)
        (t := { bytes := 60 :: c :: k0 :: (ktl ++ rest), point := 2,
                events := [⟨.enter, .Autolink, 0⟩,
                           ⟨.enter, .AutolinkMarker, 0⟩,
                           ⟨.exit, .AutolinkMarker, 1⟩,
                           ⟨.enter, .AutolinkProtocol, 1⟩],
                marker := 0, size := 0,
                constructsAutolink := true,
                constructsCharacterReference := true })
        (by simp [Tokenizer.current]) (hscheme k0 (by simp))
    have hdrop2 : (60 :: c :: k0 :: (ktl ++ rest)).drop 2 =
        (k0 :: ktl.take 29) ++ (kz :: rest) := by
      conv_lhs => rw [hsplit]
      simp
    have eLoop := schemeInside_scan (k0 :: ktl.take 29) (fuel + 1)
      ({ bytes := 60 :: c :: k0 :: (ktl ++ rest), point := 2,
         events := [⟨.enter, .Autolink, 0⟩,
                    ⟨.enter, .AutolinkMarker, 0⟩,
                    ⟨.exit, .AutolinkMarker, 1⟩,
                    ⟨.enter, .AutolinkProtocol, 1⟩],
         marker := 0, size := 1,
         constructsAutolink := true,
         constructsCharacterReference := true } : Tokenizer)
      (kz :: rest)
      (by
        intro b hb
        rcases List.mem_cons.mp hb with h | h
        · exact h ▸ hscheme k0 (by simp)
        · exact hscheme b
            (List.mem_cons_of_mem _ (List.take_subset _ _ h)))
      hdrop2
      (by simp [htake, AUTOLINK_SCHEME_SIZE_MAX])
    rw [show (k0 :: ktl.take 29).length = 30 from by simp [htake]]
      at eLoop
    norm_num at eLoop
    have h32 : (60 :: c :: k0 :: (ktl ++ rest)).drop 32 = kz :: rest := by
      have h2 : ((60 :: c :: k0 :: (ktl ++ rest)).drop 2).drop 30 =
          kz :: rest := by
        have hdl : ((k0 :: ktl.take 29) ++ (kz :: rest)).drop
            (k0 :: ktl.take 29).length = kz :: rest := List.drop_left _ _
        rw [hdrop2]
        rw [show (k0 :: ktl.take 29).length = 30 from by simp [htake]]
          at hdl
        exact hdl
      rw [List.drop_drop] at h2
      norm_num at h2
      exact h2
    have s5 : step .AutolinkSchemeInsideOrEmailAtext
        ({ bytes := 60 :: c :: k0 :: (ktl ++ rest), point := 32,
           events := [⟨.enter, .Autolink, 0⟩,
                      ⟨.enter, .AutolinkMarker, 0⟩,
                      ⟨.exit, .AutolinkMarker, 1⟩,
                      ⟨.enter, .AutolinkProtocol, 1⟩],
           marker := 0, size := 31,
           constructsAutolink := true,
           constructsCharacterReference := true } : Tokenizer) =
        ({ bytes := 60 :: c :: k0 :: (ktl ++ rest), point := 32,
           events := [⟨.enter, .Autolink, 0⟩,
                      ⟨.enter, .AutolinkMarker, 0⟩,
                      ⟨.exit, .AutolinkMarker, 1⟩,
                      ⟨.enter, .AutolinkProtocol, 1⟩],
           marker := 0, size := 0,
           constructsAutolink := true,
           constructsCharacterReference := true },
          .Retry .AutolinkEmailAtext) := by
      simpa using step_schemeInside_overflow (b := kz)
        (t := { bytes := 60 :: c :: k0 :: (ktl ++ rest), point := 32,
                events := [⟨.enter, .Autolink, 0⟩,
                           ⟨.enter, .AutolinkMarker, 0⟩,
                           ⟨.exit, .AutolinkMarker, 1⟩,
                           ⟨.enter, .AutolinkProtocol, 1⟩],
                marker := 0, size := 31,
                constructsAutolink := true,
                constructsCharacterReference := true })
        (current_of_drop h32) (schemeByte_ne_colon hkzs)
        (Or.inr (by norm_num [AUTOLINK_SCHEME_SIZE_MAX]))
    exact (run_succ_next (fuel + 33) s1).trans
      ((run_succ_next (fuel + 32) s2).trans
        ((run_succ_retry (fuel + 31) s3).trans
          (eLoop.trans (run_succ_retry fuel s5))))

/-- Witness for the universal components of the amended C3 theorem: a
concrete 31-character scheme accepted as URL and a concrete
32-character scheme handed to the email path. -/
theorem scheme_cap_counts_first_letter_witness :
    (run ([98].length + 40) .AutolinkStart
        (initT (60 :: 97 :: (List.replicate 30 97 ++
          58 :: ([98] ++ [62])))) =
      some ({ bytes := 60 :: 97 :: (List.replicate 30 97 ++
                58 :: ([98] ++ [62])),
              point := 33 + [98].length + 1,
              events := [⟨.enter, .Autolink, 0⟩,
                         ⟨.enter, .AutolinkMarker, 0⟩,
                         ⟨.exit, .AutolinkMarker, 1⟩,
                         ⟨.enter, .AutolinkProtocol, 1⟩,
                         ⟨.exit, .AutolinkProtocol, 33 + [98].length⟩,
                         ⟨.enter, .AutolinkMarker, 33 + [98].length⟩,
                         ⟨.exit, .AutolinkMarker, 33 + [98].length + 1⟩,
                         ⟨.exit, .Autolink, 33 + [98].length + 1⟩],
              marker := 0, size := 0,
              constructsAutolink := true,
              constructsCharacterReference := true }, true)) ∧
    (run (0 + 34) .AutolinkStart
        (initT (60 :: 97 :: (List.replicate 31 97 ++ [58]))) =
      run 0 .AutolinkEmailAtext
        { bytes := 60 :: 97 :: (List.replicate 31 97 ++ [58]),
          point := 32,
          events := [⟨.enter, .Autolink, 0⟩,
                     ⟨.enter, .AutolinkMarker, 0⟩,
                     ⟨.exit, .AutolinkMarker, 1⟩,
                     ⟨.enter, .AutolinkProtocol, 1⟩],
          marker := 0, size := 0,
          constructsAutolink := true,
          constructsCharacterReference := true }) :=
  ⟨scheme_cap_counts_first_letter.1 97 (List.replicate 30 97) [98]
      (by decide) (by decide) (by decide) (by decide),
    scheme_cap_counts_first_letter.2.1 97 (List.replicate 31 97) [58]
      (by decide) (by decide) (by decide) 0⟩

/-- Every single step keeps the scratch-record discipline: terminal
transitions leave `marker = size = 0`, continuations re-establish the
per-state invariant. -/
theorem step_scratch (name : StateName) (t : Tokenizer)
    (h : scratchInv name t) : postScratch (step name t) := by
  cases name with
  | AutolinkStart =>
    obtain ⟨hm, hs⟩ := h
    cases hc : t.current with
    | none => simp [step, autolinkStart, hc, postScratch, hm, hs]
    | some b =>
      by_cases hb : (b == 60 && t.constructsAutolink) = true
      · simp [step, autolinkStart, hc, hb, postScratch, scratchInv,
          Tokenizer.enter, Tokenizer.exit, Tokenizer.consume, hm, hs]
      · simp [step, autolinkStart, hc, hb, postScratch, hm, hs]
  | AutolinkOpen =>
    obtain ⟨hm, hs⟩ := h
    cases hc : t.current with
    | none =>
      simp [step, autolinkOpen, hc, postScratch, scratchInv, hm, hs]
    | some b =>
      by_cases hb : isAsciiAlpha b = true
      · simp [step, autolinkOpen, hc, hb, postScratch, scratchInv,
          Tokenizer.consume, hm, hs]
      · simp [step, autolinkOpen, hc, hb, postScratch, scratchInv, hm, hs]
  | AutolinkSchemeOrEmailAtext =>
    obtain ⟨hm, hs⟩ := h
    cases hc : t.current with
    | none =>
      simp [step, autolinkSchemeOrEmailAtext, hc, postScratch, scratchInv,
        hm, hs]
    | some b =>
      by_cases hb : isSchemeByte b = true
      · simp [step, autolinkSchemeOrEmailAtext, hc, hb, postScratch,
          scratchInv, hm, hs]
      · simp [step, autolinkSchemeOrEmailAtext, hc, hb, postScratch,
          scratchInv, hm, hs]
  | AutolinkSchemeInsideOrEmailAtext =>
    have hm : t.marker = 0 := h
    cases hc : t.current with
    | none =>
      simp [step, autolinkSchemeInsideOrEmailAtext, hc, postScratch,
        scratchInv, hm]
    | some b =>
      by_cases hb : b == 58
      · simp [step, autolinkSchemeInsideOrEmailAtext, hc, hb, postScratch,
          scratchInv, Tokenizer.consume, hm]
      · by_cases hb2 : (isSchemeByte b &&
            decide (t.size < AUTOLINK_SCHEME_SIZE_MAX)) = true
        · simp [step, autolinkSchemeInsideOrEmailAtext, hc, hb, hb2,
            postScratch, scratchInv, Tokenizer.consume, hm]
        · simp [step, autolinkSchemeInsideOrEmailAtext, hc, hb, hb2,
            postScratch, scratchInv, hm]
  | AutolinkUrlInside =>
    obtain ⟨hm, hs⟩ := h
    cases hc : t.current with
    | none => simp [step, autolinkUrlInside, hc, postScratch, hm, hs]
    | some b =>
      by_cases hb : b == 62
      · simp [step, autolinkUrlInside, hc, hb, postScratch,
          Tokenizer.enter, Tokenizer.exit, Tokenizer.consume, hm, hs]
      · by_cases hb2 : isUrlForbidden b = true
        · simp [step, autolinkUrlInside, hc, hb, hb2, postScratch, hm, hs]
        · simp [step, autolinkUrlInside, hc, hb, hb2, postScratch,
            scratchInv, Tokenizer.consume, hm, hs]
  | AutolinkEmailAtext =>
    obtain ⟨hm, hs⟩ := h
    cases hc : t.current with
    | none => simp [step, autolinkEmailAtext, hc, postScratch, hm, hs]
    | some b =>
      by_cases hb : b == 64
      · simp [step, autolinkEmailAtext, hc, hb, postScratch, scratchInv,
          Tokenizer.consume, hm, hs]
      · by_cases hb2 : isAtextByte b = true
        · simp [step, autolinkEmailAtext, hc, hb, hb2, postScratch,
            scratchInv, Tokenizer.consume, hm, hs]
        · simp [step, autolinkEmailAtext, hc, hb, hb2, postScratch, hm, hs]
  | AutolinkEmailAtSignOrDot =>
    obtain ⟨hm, hs⟩ := h
    cases hc : t.current with
    | none =>
      simp [step, autolinkEmailAtSignOrDot, hc, postScratch, hm, hs]
    | some b =>
      by_cases hb : isAsciiAlphanumeric b = true
      · simp [step, autolinkEmailAtSignOrDot, hc, hb, postScratch,
          scratchInv, hm, hs]
      · simp [step, autolinkEmailAtSignOrDot, hc, hb, postScratch, hm, hs]
  | AutolinkEmailLabel =>
    have hm : t.marker = 0 := h
    cases hc : t.current with
    | none =>
      simp [step, autolinkEmailLabel, hc, postScratch, scratchInv, hm]
    | some b =>
      by_cases hb : b == 46
      · simp [step, autolinkEmailLabel, hc, hb, postScratch, scratchInv,
          Tokenizer.consume, hm]
      · by_cases hb2 : b == 62
        · simp [step, autolinkEmailLabel, hc, hb, hb2, postScratch,
            exit_marker, exit_size, enter_marker, enter_size,
            consume_marker, consume_size, setToken_marker, setToken_size,
            hm]
        · simp [step, autolinkEmailLabel, hc, hb, hb2, postScratch,
            scratchInv, hm]
  | AutolinkEmailValue =>
    have hm : t.marker = 0 := h
    cases hc : t.current with
    | none =>
      simp [step, autolinkEmailValue, hc, postScratch, scratchInv, hm]
    | some b =>
      by_cases hb : (isLabelByte b &&
          decide (t.size < AUTOLINK_DOMAIN_SIZE_MAX)) = true
      · by_cases hb2 : b == 45 <;>
          simp [step, autolinkEmailValue, hc, hb, hb2, postScratch,
            scratchInv, Tokenizer.consume, hm]
      · simp [step, autolinkEmailValue, hc, hb, postScratch, scratchInv,
          hm]
  | CharacterReferenceStart =>
    obtain ⟨hm, hs⟩ := h
    by_cases hb : (t.constructsCharacterReference &&
        t.current == some 38) = true
    · simp [step, characterReferenceStart, hb, postScratch, scratchInv,
        Tokenizer.enter, Tokenizer.exit, Tokenizer.consume, hm, hs]
    · simp [step, characterReferenceStart, hb, postScratch, hm, hs]
  | CharacterReferenceOpen =>
    obtain ⟨hm, hs⟩ := h
    by_cases hb : (t.current == some 35) = true
    · simp [step, characterReferenceOpen, hb, postScratch, scratchInv,
        Tokenizer.enter, Tokenizer.exit, Tokenizer.consume, hm, hs]
    · simp [step, characterReferenceOpen, hb, postScratch, scratchInv,
        Tokenizer.enter, hm, hs]
  | CharacterReferenceNumeric =>
    obtain ⟨hm, hs⟩ := h
    by_cases hb : (t.current == some 120 || t.current == some 88) = true
    · simp [step, characterReferenceNumeric, hb, postScratch, scratchInv,
        Tokenizer.enter, Tokenizer.exit, Tokenizer.consume, hm, hs]
    · simp [step, characterReferenceNumeric, hb, postScratch, scratchInv,
        Tokenizer.enter, hm, hs]
  | CharacterReferenceValue =>
    by_cases hA : (t.current == some 59 && decide (0 < t.size)) = true
    · by_cases hB : (t.marker == 38 &&
          !(CHARACTER_REFERENCES.any fun d =>
            d.1 == sliceBytes t.bytes (t.point - t.size) t.point)) = true
      · simp [step, characterReferenceValue, hA, hB, postScratch]
      · simp [step, characterReferenceValue, hA, hB, postScratch,
          Tokenizer.enter, Tokenizer.exit, Tokenizer.consume]
    · cases hc : t.current with
      | none => simp [step, characterReferenceValue, hA, hc, postScratch]
      | some b =>
        rw [hc] at hA
        by_cases hC : (decide (t.size <
            (if t.marker == 38 then CHARACTER_REFERENCE_NAMED_SIZE_MAX
             else if t.marker == 120 then
               CHARACTER_REFERENCE_HEXADECIMAL_SIZE_MAX
             else if t.marker == 35 then
               CHARACTER_REFERENCE_DECIMAL_SIZE_MAX
             else 0)) &&
            (if t.marker == 38 then isAsciiAlphanumeric
             else if t.marker == 120 then isAsciiHexdigit
             else if t.marker == 35 then isAsciiDigit
             else fun _ => false) b) = true
        · have hm : t.marker = 38 ∨ t.marker = 120 ∨ t.marker = 35 := h
          simp only [step, characterReferenceValue, hA, hc, hC,
            Bool.false_eq_true, if_false]
          simpa [postScratch, scratchInv, Tokenizer.consume] using hm
        · simp only [step, characterReferenceValue, hA, hc, hC,
            Bool.false_eq_true, if_false]
          simp [postScratch]

/-- Lifting `step_scratch` over the trampoline: any terminal result of
a run from a state satisfying `scratchInv` has a neutral scratch. -/
theorem run_scratch :
    ∀ (fuel : Nat) (name : StateName) (t t' : Tokenizer) (ok : Bool),
    scratchInv name t → run fuel name t = some (t', ok) →
    t'.marker = 0 ∧ t'.size = 0 := by
  intro fuel
  induction fuel with
  | zero =>
    intro name t t' ok h hr
    simp [run] at hr
  | succ n ih =>
    intro name t t' ok h hr
    have hp := step_scratch name t h
    rw [run] at hr
    cases hs : step name t with
    | mk t1 s =>
      rw [hs] at hr hp
      cases s with
      | Ok =>
        obtain ⟨rfl, -⟩ : t1 = t' ∧ true = ok := by
          simpa using hr
        exact hp
      | Nok =>
        obtain ⟨rfl, -⟩ : t1 = t' ∧ false = ok := by
          simpa using hr
        exact hp
      | Next n' => exact ih n' t1 t' ok hp hr
      | Retry n' => exact ih n' t1 t' ok hp hr

/-- C7: starting either recognizer with a neutral scratch record
(`marker = 0`, `size = 0`), every terminal outcome — `Ok` or `Nok`,
along any path with any fuel — leaves the scratch neutral again: no
stale `marker` or `size` ever survives past the end of an attempt. -/
theorem scratch_neutral_on_terminal :
    ∀ (fuel : Nat) (t t' : Tokenizer) (ok : Bool) (name : StateName),
    (name = .AutolinkStart ∨ name = .CharacterReferenceStart) →
    t.marker = 0 → t.size = 0 →
    run fuel name t = some (t', ok) →
    t'.marker = 0 ∧ t'.size = 0 := by
  intro fuel t t' ok name hname hm hs hr
  rcases hname with rfl | rfl
  · exact run_scratch fuel .AutolinkStart t t' ok ⟨hm, hs⟩ hr
  · exact run_scratch fuel .CharacterReferenceStart t t' ok ⟨hm, hs⟩ hr

/-- Witness for C7 at the concrete accepting run of `&amp;`. -/
theorem scratch_neutral_on_terminal_witness :
    ({ bytes := strBytes "&amp;", point := 5,
       events := [⟨.enter, .CharacterReference, 0⟩,
                  ⟨.enter, .CharacterReferenceMarker, 0⟩,
                  ⟨.exit, .CharacterReferenceMarker, 1⟩,
                  ⟨.enter, .CharacterReferenceValue, 1⟩,
                  ⟨.exit, .CharacterReferenceValue, 4⟩,
                  ⟨.enter, .CharacterReferenceMarkerSemi, 4⟩,
                  ⟨.exit, .CharacterReferenceMarkerSemi, 5⟩,
                  ⟨.exit, .CharacterReference, 5⟩],
       marker := 0, size := 0,
       constructsAutolink := true,
       constructsCharacterReference := true } : Tokenizer).marker = 0 ∧
    ({ bytes := strBytes "&amp;", point := 5,
       events := [⟨.enter, .CharacterReference, 0⟩,
                  ⟨.enter, .CharacterReferenceMarker, 0⟩,
                  ⟨.exit, .CharacterReferenceMarker, 1⟩,
                  ⟨.enter, .CharacterReferenceValue, 1⟩,
                  ⟨.exit, .CharacterReferenceValue, 4⟩,
                  ⟨.enter, .CharacterReferenceMarkerSemi, 4⟩,
                  ⟨.exit, .CharacterReferenceMarkerSemi, 5⟩,
                  ⟨.exit, .CharacterReference, 5⟩],
       marker := 0, size := 0,
       constructsAutolink := true,
       constructsCharacterReference := true } : Tokenizer).size = 0 :=
  scratch_neutral_on_terminal 30 (initT (strBytes "&amp;")) _ true
    .CharacterReferenceStart (Or.inr rfl) rfl rfl (by decide)

/-! ## Event-log prefix preservation -/

theorem enter_events (t : Tokenizer) (k : Token) :
    (t.enter k).events = t.events ++ [⟨.enter, k, t.point⟩] := rfl

theorem exit_events (t : Tokenizer) (k : Token) :
    (t.exit k).events = t.events ++ [⟨.exit, k, t.point⟩] := rfl

theorem consume_events (t : Tokenizer) :
    t.consume.events = t.events := rfl

theorem prefix_append_right {e₀ es : List Event} (l : List Event)
    (h : e₀ <+: es) : e₀ <+: es ++ l :=
  h.trans (List.prefix_append es l)

theorem prefix_set_of_le {e₀ es : List Event} {i : Nat} (x : Event)
    (h : e₀ <+: es) (hi : e₀.length ≤ i) : e₀ <+: es.set i x := by
  obtain ⟨tail, rfl⟩ := h
  rw [List.set_append_right _ _ hi]
  exact List.prefix_append _ _

theorem prefix_enter {e₀ : List Event} {t : Tokenizer} (k : Token)
    (h : e₀ <+: t.events) : e₀ <+: (t.enter k).events :=
  prefix_append_right _ h

theorem prefix_exit {e₀ : List Event} {t : Tokenizer} (k : Token)
    (h : e₀ <+: t.events) : e₀ <+: (t.exit k).events :=
  prefix_append_right _ h

theorem prefix_consume {e₀ : List Event} {t : Tokenizer}
    (h : e₀ <+: t.events) : e₀ <+: t.consume.events := h

theorem prefix_setToken {e₀ : List Event} (t : Tokenizer) (i : Nat)
    (k : Token) (h : e₀ <+: t.events) (hi : e₀.length ≤ i) :
    e₀ <+: (t.setToken i k).events := by
  unfold Tokenizer.setToken
  cases hg : t.events[i]? with
  | some e => simpa using prefix_set_of_le _ h hi
  | none => simpa using h

theorem setToken_events_length (t : Tokenizer) (i : Nat) (k : Token) :
    (t.setToken i k).events.length = t.events.length := by
  unfold Tokenizer.setToken
  cases hg : t.events[i]? with
  | some e => simp
  | none => simp

/-- Every single step keeps the event-log discipline of an attempt that
started with log `e₀`: the original log stays a prefix (events are only
appended, or retagged at indices past `e₀`), and continuations
re-establish `eventsInv`. -/
theorem step_events (e₀ : List Event) (name : StateName) (t : Tokenizer)
    (h : eventsInv e₀ name t) : postEvents e₀ (step name t) := by
  obtain ⟨hpre, hbnd⟩ := h
  have hlen0 := hpre.length_le
  cases name with
  | AutolinkStart =>
    cases hc : t.current with
    | none => simpa [step, autolinkStart, hc, postEvents] using hpre
    | some b =>
      by_cases hb : (b == 60 && t.constructsAutolink) = true
      · simp only [step, autolinkStart, hc, hb, if_true, postEvents]
        refine ⟨prefix_enter _ (prefix_exit _ (prefix_consume
          (prefix_enter _ (prefix_enter _ hpre)))), ?_⟩
        intro _ _
        simp [enter_events, exit_events, consume_events]
        omega
      · simpa [step, autolinkStart, hc, hb, postEvents] using hpre
  | AutolinkOpen =>
    have hb' := hbnd (by decide) (by decide)
    cases hc : t.current with
    | none =>
      simp only [step, autolinkOpen, hc, postEvents]
      exact ⟨hpre, fun _ _ => hb'⟩
    | some b =>
      by_cases hb : isAsciiAlpha b = true
      · simp only [step, autolinkOpen, hc, hb, if_true, postEvents]
        exact ⟨hpre, fun _ _ => hb'⟩
      · simp only [step, autolinkOpen, hc, hb, if_false, postEvents,
          Bool.false_eq_true]
        exact ⟨hpre, fun _ _ => hb'⟩
  | AutolinkSchemeOrEmailAtext =>
    have hb' := hbnd (by decide) (by decide)
    cases hc : t.current with
    | none =>
      simp only [step, autolinkSchemeOrEmailAtext, hc, postEvents]
      exact ⟨hpre, fun _ _ => hb'⟩
    | some b =>
      by_cases hb : isSchemeByte b = true
      · simp only [step, autolinkSchemeOrEmailAtext, hc, hb, if_true,
          postEvents]
        exact ⟨hpre, fun _ _ => hb'⟩
      · simp only [step, autolinkSchemeOrEmailAtext, hc, hb, if_false,
          postEvents, Bool.false_eq_true]
        exact ⟨hpre, fun _ _ => hb'⟩
  | AutolinkSchemeInsideOrEmailAtext =>
    have hb' := hbnd (by decide) (by decide)
    cases hc : t.current with
    | none =>
      simp only [step, autolinkSchemeInsideOrEmailAtext, hc, postEvents]
      exact ⟨hpre, fun _ _ => hb'⟩
    | some b =>
      by_cases hb : b == 58
      · simp only [step, autolinkSchemeInsideOrEmailAtext, hc, hb,
          if_true, postEvents]
        exact ⟨hpre, fun _ _ => hb'⟩
      · by_cases hb2 : (isSchemeByte b &&
            decide (t.size < AUTOLINK_SCHEME_SIZE_MAX)) = true
        · simp only [step, autolinkSchemeInsideOrEmailAtext, hc, hb, hb2,
            if_true, if_false, postEvents, Bool.false_eq_true]
          exact ⟨hpre, fun _ _ => hb'⟩
        · simp only [step, autolinkSchemeInsideOrEmailAtext, hc, hb, hb2,
            if_false, postEvents, Bool.false_eq_true]
          exact ⟨hpre, fun _ _ => hb'⟩
  | AutolinkUrlInside =>
    have hb' := hbnd (by decide) (by decide)
    cases hc : t.current with
    | none => simpa [step, autolinkUrlInside, hc, postEvents] using hpre
    | some b =>
      by_cases hb : b == 62
      · simp only [step, autolinkUrlInside, hc, hb, if_true, postEvents]
        exact prefix_exit _ (prefix_exit _ (prefix_consume
          (prefix_enter _ (prefix_exit _ hpre))))
      · by_cases hb2 : isUrlForbidden b = true
        · simpa [step, autolinkUrlInside, hc, hb, hb2, postEvents]
            using hpre
        · simp only [step, autolinkUrlInside, hc, hb, hb2, if_false,
            postEvents, Bool.false_eq_true]
          exact ⟨hpre, fun _ _ => hb'⟩
  | AutolinkEmailAtext =>
    have hb' := hbnd (by decide) (by decide)
    cases hc : t.current with
    | none => simpa [step, autolinkEmailAtext, hc, postEvents] using hpre
    | some b =>
      by_cases hb : b == 64
      · simp only [step, autolinkEmailAtext, hc, hb, if_true, postEvents]
        exact ⟨hpre, fun _ _ => hb'⟩
      · by_cases hb2 : isAtextByte b = true
        · simp only [step, autolinkEmailAtext, hc, hb, hb2, if_true,
            if_false, postEvents, Bool.false_eq_true]
          exact ⟨hpre, fun _ _ => hb'⟩
        · simpa [step, autolinkEmailAtext, hc, hb, hb2, postEvents]
            using hpre
  | AutolinkEmailAtSignOrDot =>
    have hb' := hbnd (by decide) (by decide)
    cases hc : t.current with
    | none =>
      simpa [step, autolinkEmailAtSignOrDot, hc, postEvents] using hpre
    | some b =>
      by_cases hb : isAsciiAlphanumeric b = true
      · simp only [step, autolinkEmailAtSignOrDot, hc, hb, if_true,
          postEvents]
        exact ⟨hpre, fun _ _ => hb'⟩
      · simpa [step, autolinkEmailAtSignOrDot, hc, hb, postEvents]
          using hpre
  | AutolinkEmailLabel =>
    have hb' := hbnd (by decide) (by decide)
    cases hc : t.current with
    | none =>
      simp only [step, autolinkEmailLabel, hc, postEvents]
      exact ⟨hpre, fun _ _ => hb'⟩
    | some b =>
      by_cases hb : b == 46
      · simp only [step, autolinkEmailLabel, hc, hb, if_true, postEvents]
        exact ⟨hpre, fun _ _ => hb'⟩
      · by_cases hb2 : b == 62
        · simp only [step, autolinkEmailLabel, hc, hb, hb2, if_true,
            if_false, postEvents, Bool.false_eq_true]
          refine prefix_exit _ (prefix_exit _ (prefix_consume
            (prefix_enter _ (prefix_setToken _ _ _
              (prefix_setToken _ _ _ (prefix_exit _ hpre) ?_) ?_)))) <;>
            omega
        · simp only [step, autolinkEmailLabel, hc, hb, hb2, if_false,
            postEvents, Bool.false_eq_true]
          exact ⟨hpre, fun _ _ => hb'⟩
  | AutolinkEmailValue =>
    have hb' := hbnd (by decide) (by decide)
    cases hc : t.current with
    | none => simpa [step, autolinkEmailValue, hc, postEvents] using hpre
    | some b =>
      by_cases hb : (isLabelByte b &&
          decide (t.size < AUTOLINK_DOMAIN_SIZE_MAX)) = true
      · by_cases hb2 : b == 45 <;>
          · simp only [step, autolinkEmailValue, hc, hb, hb2, if_true,
              if_false, postEvents, Bool.false_eq_true]
            exact ⟨hpre, fun _ _ => hb'⟩
      · simpa [step, autolinkEmailValue, hc, hb, postEvents] using hpre
  | CharacterReferenceStart =>
    by_cases hb : (t.constructsCharacterReference &&
        t.current == some 38) = true
    · simp only [step, characterReferenceStart, hb, if_true, postEvents]
      refine ⟨prefix_exit _ (prefix_consume
        (prefix_enter _ (prefix_enter _ hpre))), ?_⟩
      intro _ _
      simp [enter_events, exit_events, consume_events]
      omega
    · simpa [step, characterReferenceStart, hb, postEvents] using hpre
  | CharacterReferenceOpen =>
    have hb' := hbnd (by decide) (by decide)
    by_cases hb : (t.current == some 35) = true
    · simp only [step, characterReferenceOpen, hb, if_true, postEvents]
      exact ⟨prefix_exit _ (prefix_consume (prefix_enter _ hpre)),
        fun _ _ => by
          simp [enter_events, exit_events, consume_events]
          omega⟩
    · simp only [step, characterReferenceOpen, hb, if_false, postEvents,
        Bool.false_eq_true]
      exact ⟨prefix_enter _ hpre,
        fun _ _ => by
          simp [enter_events]
          omega⟩
  | CharacterReferenceNumeric =>
    have hb' := hbnd (by decide) (by decide)
    by_cases hb : (t.current == some 120 || t.current == some 88) = true
    · simp only [step, characterReferenceNumeric, hb, if_true, postEvents]
      exact ⟨prefix_enter _ (prefix_exit _ (prefix_consume
          (prefix_enter _ hpre))),
        fun _ _ => by
          simp [enter_events, exit_events, consume_events]
          omega⟩
    · simp only [step, characterReferenceNumeric, hb, if_false,
        postEvents, Bool.false_eq_true]
      exact ⟨prefix_enter _ hpre,
        fun _ _ => by
          simp [enter_events]
          omega⟩
  | CharacterReferenceValue =>
    have hb' := hbnd (by decide) (by decide)
    by_cases hA : (t.current == some 59 && decide (0 < t.size)) = true
    · by_cases hB : (t.marker == 38 &&
          !(CHARACTER_REFERENCES.any fun d =>
            d.1 == sliceBytes t.bytes (t.point - t.size) t.point)) = true
      · simpa [step, characterReferenceValue, hA, hB, postEvents]
          using hpre
      · simp only [step, characterReferenceValue, hA, hB, if_true,
          if_false, postEvents, Bool.false_eq_true]
        exact prefix_exit _ (prefix_exit _ (prefix_consume
          (prefix_enter _ (prefix_exit _ hpre))))
    · cases hc : t.current with
      | none =>
        simpa [step, characterReferenceValue, hA, hc, postEvents]
          using hpre
      | some b =>
        rw [hc] at hA
        by_cases hC : (decide (t.size <
            (if t.marker == 38 then CHARACTER_REFERENCE_NAMED_SIZE_MAX
             else if t.marker == 120 then
               CHARACTER_REFERENCE_HEXADECIMAL_SIZE_MAX
             else if t.marker == 35 then
               CHARACTER_REFERENCE_DECIMAL_SIZE_MAX
             else 0)) &&
            (if t.marker == 38 then isAsciiAlphanumeric
             else if t.marker == 120 then isAsciiHexdigit
             else if t.marker == 35 then isAsciiDigit
             else fun _ => false) b) = true
        · simp only [step, characterReferenceValue, hA, hc, hC, if_true,
            if_false, postEvents, Bool.false_eq_true]
          exact ⟨hpre, fun _ _ => hb'⟩
        · simp only [step, characterReferenceValue, hA, hc, hC, if_false,
            postEvents, Bool.false_eq_true]
          exact hpre

/-- Lifting `step_events` over the trampoline: whatever a run does, the
event log it started from is a prefix of the event log it ends with. -/
theorem run_events (e₀ : List Event) :
    ∀ (fuel : Nat) (name : StateName) (t t' : Tokenizer) (ok : Bool),
    eventsInv e₀ name t → run fuel name t = some (t', ok) →
    e₀ <+: t'.events := by
  intro fuel
  induction fuel with
  | zero =>
    intro name t t' ok h hr
    simp [run] at hr
  | succ n ih =>
    intro name t t' ok h hr
    have hp := step_events e₀ name t h
    rw [run] at hr
    cases hs : step name t with
    | mk t1 s =>
      rw [hs] at hr hp
      cases s with
      | Ok =>
        obtain ⟨rfl, -⟩ : t1 = t' ∧ true = ok := by simpa using hr
        exact hp
      | Nok =>
        obtain ⟨rfl, -⟩ : t1 = t' ∧ false = ok := by simpa using hr
        exact hp
      | Next n' => exact ih n' t1 t' ok hp hr
      | Retry n' => exact ih n' t1 t' ok hp hr

/-- C1: a construct attempt (autolink or character reference) that ends
in `Nok` is side-effect-free: after the engine's rollback, the cursor
and the whole event log — its length included — equal those recorded at
the checkpoint taken immediately before the attempt began. -/
theorem nok_attempt_rolls_back :
    ∀ (fuel : Nat) (name : StateName) (t t' : Tokenizer),
    (name = .AutolinkStart ∨ name = .CharacterReferenceStart) →
    attempt fuel name t = some (t', false) →
    t'.point = t.point ∧ t'.events = t.events := by
  intro fuel name t t' hname hat
  unfold attempt at hat
  cases hr : run fuel name t with
  | none => rw [hr] at hat; exact absurd hat (by simp)
  | some r =>
    obtain ⟨t1, ok⟩ := r
    rw [hr] at hat
    cases ok with
    | true => simp at hat
    | false =>
      have hpre : t.events <+: t1.events := by
        refine run_events t.events fuel name t t1 false ?_ hr
        refine ⟨List.prefix_refl _, ?_⟩
        rcases hname with rfl | rfl <;> simp
      obtain ⟨tail, htail⟩ := hpre
      obtain ⟨rfl, -⟩ :
          ({ t1 with point := t.point
                     events := t1.events.take t.events.length } :
            Tokenizer) = t' ∧ False = False := by simpa using hat
      refine ⟨rfl, ?_⟩
      simp only [← htail]
      exact List.take_left _ _

/-- Witness for C1 at the concrete failed attempt on `<a:b>`. -/
theorem nok_attempt_rolls_back_witness :
    ({ bytes := strBytes "<a:b>", point := 0, events := [], marker := 0,
       size := 0, constructsAutolink := true,
       constructsCharacterReference := true } : Tokenizer).point =
      (initT (strBytes "<a:b>")).point ∧
    ({ bytes := strBytes "<a:b>", point := 0, events := [], marker := 0,
       size := 0, constructsAutolink := true,
       constructsCharacterReference := true } : Tokenizer).events =
      (initT (strBytes "<a:b>")).events :=
  nok_attempt_rolls_back 40 .AutolinkStart (initT (strBytes "<a:b>")) _
    (Or.inl rfl) (by decide)

end MarkdownRs
